/-
  Verification development for the OpenFlow East-West DVR agent
  (neutron/plugins/openvswitch/agent/openflow_ew_dvr_agent.py).

  The agent's mutable state (dvr_mac_address, registered_dvr_macs,
  registered_routers, last_sync) is embedded as an explicit state record.
  Every `int_br.add_flow` / `int_br.delete_flows` call is recorded as an
  event in `St.emitted`; a failure budget (`St.budget`) models a flow
  backend call that raises after a prefix of the flow operations has been
  applied, and exceptions propagate as the left summand of the result.
  Python dicts are modelled as association lists (iteration order of a
  Python dict is arbitrary; list order plays that role), Python sets as
  `Finset String`.  The plugin RPC results (`get_dvr_mac_address_by_host`,
  `get_openflow_ew_dvrs`) are passed in as `Except` values, and
  `int_br.get_port_ofport` as a function in the configuration.
-/
import Mathlib

set_option maxHeartbeats 1000000
set_option maxRecDepth 4000

/-- A port record: keys `mac`, `ip`, `host`, `name` of the Python port dict.
`host` is an `Option` because `_add_flows_to_hosted_port` assigns `None`. -/
structure Port where
  mac : String
  ip : String
  host : Option String
  name : String
  deriving DecidableEq

/-- A subnet record: keys `cidr`, `gateway_mac`, `seg_id`, `ports`. -/
structure Subnet where
  cidr : String
  gateway_mac : String
  seg_id : String
  ports : List (String × Port)
  deriving DecidableEq

/-- A DVR (router) is the dict subnet_id -> subnet. -/
abbrev Router := List (String × Subnet)

/-- The authoritative topology is the dict dvr_id -> router. -/
abbrev Topology := List (String × Router)

/-- One entry of the roster returned by `get_dvr_mac_address_list`. -/
structure DvrMacEntry where
  host : String
  mac_address : String
  deriving DecidableEq

/-- Match keyword arguments of an add_flow / delete_flows call. -/
structure OFMatch where
  dl_src : Option String := none
  dl_dst : Option String := none
  proto : Option String := none
  ip_dst : Option String := none
  deriving DecidableEq

/-- A flow operation handed to the flow backend.  `addFlow` with no
`table=` kwarg is table 0; `delFlows` keeps the optional table and the
optional `actions` kwarg that the source sometimes passes to
`delete_flows`. -/
inductive FlowOp where
  | addFlow (table : Nat) (priority : Nat) (m : OFMatch) (actions : String)
  | delFlows (table : Option Nat) (m : OFMatch) (actions : Option String)
  deriving DecidableEq

/-- Which bridge a flow operation was issued on: the integration bridge
or one of the physical bridges. -/
inductive Sink where
  | int
  | phys (br : String)
  deriving DecidableEq

/-- The agent's mutable state, plus the recorded flow-operation trace
(`emitted`), the failure budget (`budget = some n` makes the (n+1)-st
flow operation raise; `none` means the backend never fails) and a counter
of topology fetch attempts (`fetches`). -/
structure St where
  dvr_mac_address : Option String
  registered_dvr_macs : Finset String
  registered_routers : List (String × Router)
  last_sync : Int
  emitted : List (Sink × FlowOp)
  budget : Option Nat
  fetches : Nat
  deriving DecidableEq

/-- Constructor-time configuration of `OFEWDVRAgent` plus the
`get_port_ofport` resolver of the integration bridge. -/
structure Cfg where
  host : String
  int_ofports : String
  sync_interval : Int
  get_port_ofport : String → Int

def OF_EW_DVR_DST : Nat := 1

def OF_EW_DVR_SRC : Nat := 2

def INVALID_OFPORT : Int := -1

/-- The "resubmit(,t)" action string built with the %s format. -/
def resubmitTo (t : Nat) : String := "resubmit(," ++ toString t ++ ")"

/-- Iteration order of a Python set is arbitrary; we iterate a `Finset` in
sorted order, using insertion sort so that the function reduces inside
the kernel (insertion sort gives the same output on permuted inputs, so
it lifts to the multiset). -/
def ftoList (s : Finset String) : List String :=
  Quot.liftOn s.val (fun l => List.insertionSort (fun a b => a ≤ b) l)
    (fun l₁ l₂ h =>
      List.eq_of_perm_of_sorted
        ((List.perm_insertionSort _ l₁).trans
          (h.trans (List.perm_insertionSort _ l₂).symm))
        (List.sorted_insertionSort _ l₁) (List.sorted_insertionSort _ l₂))

/-- Python dict lookup `d[k]` / `d.get(k)` on an association list. -/
def dlookup {α : Type} (k : String) : List (String × α) → Option α
  | [] => none
  | kv :: rest => if kv.1 = k then some kv.2 else dlookup k rest

/-- Python `k in d`. -/
def dictMem {α : Type} (k : String) (d : List (String × α)) : Bool :=
  (dlookup k d).isSome

/-- Python `d[k] = v` (replace in place if present, else append; dict
order is arbitrary so in-place replacement is a faithful model). -/
def dictSet {α : Type} (k : String) (v : α) (d : List (String × α)) :
    List (String × α) :=
  if dictMem k d then d.map (fun kv => if kv.1 = k then (k, v) else kv)
  else d ++ [(k, v)]

/-- Python `d.pop(k)`, the remaining dict. -/
def dictRemove {α : Type} (k : String) (d : List (String × α)) :
    List (String × α) :=
  d.filter (fun kv => decide (kv.1 ≠ k))

/-- The computation monad: state plus an exception that carries the state
at the moment the exception is raised (so that a tick aborted by a flow
backend failure leaves its partial mutations visible, as in Python). -/
def M (α : Type) : Type := St → St ⊕ (α × St)

def mpure {α : Type} (a : α) : M α := fun s => Sum.inr (a, s)

def mbind {α β : Type} (x : M α) (f : α → M β) : M β := fun s =>
  match x s with
  | Sum.inl t => Sum.inl t
  | Sum.inr (a, t) => f a t

def getS : M St := fun s => Sum.inr (s, s)

/-- An uncaught Python exception (e.g. KeyError). -/
def raiseM : M Unit := fun s => Sum.inl s

/-- Record a flow operation; raises when the failure budget is exhausted,
modelling a flow backend call that fails. -/
def emit (snk : Sink) (op : FlowOp) : M Unit := fun s =>
  match s.budget with
  | some 0 => Sum.inl s
  | some (n + 1) =>
      Sum.inr ((), { s with emitted := s.emitted ++ [(snk, op)], budget := some n })
  | none => Sum.inr ((), { s with emitted := s.emitted ++ [(snk, op)] })

def setMac (m : Option String) : M Unit := fun s =>
  Sum.inr ((), { s with dvr_mac_address := m })

def modifyReg (g : List (String × Router) → List (String × Router)) : M Unit :=
  fun s => Sum.inr ((), { s with registered_routers := g s.registered_routers })

def modifyMacs (g : Finset String → Finset String) : M Unit := fun s =>
  Sum.inr ((), { s with registered_dvr_macs := g s.registered_dvr_macs })

def setLastSync (t : Int) : M Unit := fun s =>
  Sum.inr ((), { s with last_sync := t })

def countFetch : M Unit := fun s =>
  Sum.inr ((), { s with fetches := s.fetches + 1 })

/-- `for x in xs:` over a monadic body. -/
def mfor {α : Type} : List α → (α → M Unit) → M Unit
  | [], _ => mpure ()
  | x :: xs, f => mbind (f x) (fun _ => mfor xs f)

/-- The state an execution ends in, whether it returns or raises. -/
def outSt {α : Type} (m : M α) (s : St) : St :=
  match m s with
  | Sum.inl t => t
  | Sum.inr (_, t) => t

/- ===== flow-operation builders (the kwargs of each backend call) ===== -/

/-- `_set_src_to_dvr`: add_flow(table=OF_EW_DVR_SRC, priority=1, actions=...). -/
def selfSrcOp (mac int_ofports : String) : FlowOp :=
  FlowOp.addFlow OF_EW_DVR_SRC 1 {} ("mod_dl_src:" ++ mac ++ "," ++ int_ofports)

/-- Physical-bridge rule from `setup_dvr_flows_on_phys_brs`. -/
def physOp (mac : String) : FlowOp :=
  FlowOp.addFlow 0 3 { dl_src := some mac } "normal"

/-- Table-0 priority-5 resubmit rule for a foreign DVR MAC. -/
def macAdd0Op (mac : String) : FlowOp :=
  FlowOp.addFlow 0 5 { dl_src := some mac } (resubmitTo OF_EW_DVR_SRC)

/-- Table-2 priority-2 drop rule for a foreign DVR MAC. -/
def macAdd2Op (mac : String) : FlowOp :=
  FlowOp.addFlow OF_EW_DVR_SRC 2 { dl_src := some mac } "drop"

/-- delete_flows(dl_src=oldmac, actions="resubmit(,2)") (no table kwarg). -/
def macDel0Op (mac : String) : FlowOp :=
  FlowOp.delFlows none { dl_src := some mac } (some (resubmitTo OF_EW_DVR_SRC))

/-- delete_flows(table=OF_EW_DVR_SRC, dl_src=oldmac, actions="drop"). -/
def macDel2Op (mac : String) : FlowOp :=
  FlowOp.delFlows (some OF_EW_DVR_SRC) { dl_src := some mac } (some "drop")

/-- Table-0 priority-2 "other subnets" rule (`_add_flows_to_other_subnets`). -/
def otherSubnetAddOp (gateway_mac cidr : String) : FlowOp :=
  FlowOp.addFlow 0 2
    { dl_dst := some gateway_mac, proto := some "ip", ip_dst := some cidr }
    (resubmitTo OF_EW_DVR_DST)

/-- `_del_flows_to_other_subnets` delete (no table kwarg). -/
def otherSubnetDelOp (gateway_mac cidr : String) : FlowOp :=
  FlowOp.delFlows none
    { dl_dst := some gateway_mac, proto := some "ip", ip_dst := some cidr } none

/-- Table-1 priority-2 resolve rule for a port (`_add_flows_to_port`). -/
def portAddOp (port : Port) (seg_id gateway_mac : String) : FlowOp :=
  FlowOp.addFlow OF_EW_DVR_DST 2
    { dl_dst := some gateway_mac, proto := some "ip", ip_dst := some port.ip }
    ("mod_dl_dst:" ++ port.mac ++ ",mod_vlan_vid:" ++ seg_id ++ ","
      ++ resubmitTo OF_EW_DVR_SRC)

/-- `_del_flows_to_port` delete on table OF_EW_DVR_DST. -/
def portDelOp (port : Port) (gateway_mac : String) : FlowOp :=
  FlowOp.delFlows (some OF_EW_DVR_DST)
    { dl_dst := some gateway_mac, proto := some "ip", ip_dst := some port.ip } none

/-- Table-2 priority-3 hosted-delivery rule (`_add_flows_to_hosted_port`). -/
def hostedAddOp (port : Port) (gateway_mac : String) (ofno : Int) : FlowOp :=
  FlowOp.addFlow OF_EW_DVR_SRC 3
    { dl_dst := some port.mac, proto := some "ip", ip_dst := some port.ip }
    ("strip_vlan,mod_dl_src:" ++ gateway_mac ++ ",dec_ttl,output:" ++ toString ofno)

/-- `_del_flows_to_hosted_port` delete on table OF_EW_DVR_SRC. -/
def hostedDelOp (port : Port) : FlowOp :=
  FlowOp.delFlows (some OF_EW_DVR_SRC)
    { dl_dst := some port.mac, proto := some "ip", ip_dst := some port.ip } none

/- ===== the agent methods ===== -/

/-- `_set_src_to_dvr` (source lines 93-98): installs the Table-2
priority-1 rewrite rule, guarded by `if self.dvr_mac_address:`. -/
def _set_src_to_dvr (cfg : Cfg) : M Unit :=
  mbind getS (fun s =>
    match s.dvr_mac_address with
    | some mac => emit Sink.int (selfSrcOp mac cfg.int_ofports)
    | none => mpure ())

/-- `_get_dvr_mac_address` (lines 100-109): on RPC success stores the
MAC, on exception logs and leaves the attribute unchanged. -/
def _get_dvr_mac_address (envMac : Except Unit String) : M Unit :=
  match envMac with
  | Except.ok m => setMac (some m)
  | Except.error _ => mpure ()

/-- `setup_dvr_flows_on_phys_brs` (lines 153-160). -/
def setup_dvr_flows_on_phys_brs (physBrs : List String) : M Unit :=
  mbind getS (fun s =>
    match s.dvr_mac_address with
    | none => mpure ()
    | some mac => mfor physBrs (fun br => emit (Sink.phys br) (physOp mac)))

/-- `desired = {mac for mac in roster if mac.mac_address != self MAC and
mac.host != self.host}` (the loop of lines 169-174). -/
def desiredMacs (cfg : Cfg) (selfmac : String) (dvr_macs : List DvrMacEntry) :
    Finset String :=
  ((dvr_macs.filter
      (fun e => decide (¬ (e.mac_address = selfmac ∨ e.host = cfg.host)))).map
    (fun e => e.mac_address)).toFinset

/-- Body of the `for oldmac in dvr_macs_removed:` loop (lines 183-191). -/
def delMacStep (oldmac : String) : M Unit :=
  mbind (emit Sink.int (macDel0Op oldmac)) (fun _ =>
  mbind (emit Sink.int (macDel2Op oldmac)) (fun _ =>
  modifyMacs (fun r => r.erase oldmac)))

/-- Body of the `for newmac in dvr_macs_added:` loop (lines 193-201). -/
def addMacStep (newmac : String) : M Unit :=
  mbind (emit Sink.int (macAdd0Op newmac)) (fun _ =>
  mbind (emit Sink.int (macAdd2Op newmac)) (fun _ =>
  modifyMacs (fun r => insert newmac r)))

/-- `dvr_mac_address_update` (lines 169-201), after the self-MAC guard:
diff the desired foreign-MAC set against the registry and replay it. -/
def dvr_mac_address_update_body (cfg : Cfg) (dvr_macs : List DvrMacEntry)
    (selfmac : String) : M Unit :=
  mbind getS (fun s =>
    if desiredMacs cfg selfmac dvr_macs = s.registered_dvr_macs then mpure ()
    else
      mbind (mfor (ftoList (s.registered_dvr_macs \ desiredMacs cfg selfmac dvr_macs))
          delMacStep)
        (fun _ => mfor (ftoList (desiredMacs cfg selfmac dvr_macs \
          s.registered_dvr_macs)) addMacStep))

/-- `dvr_mac_address_update` (lines 162-201). -/
def dvr_mac_address_update (cfg : Cfg) (dvr_macs : List DvrMacEntry) : M Unit :=
  mbind getS (fun s =>
    match s.dvr_mac_address with
    | none => mpure ()
    | some selfmac => dvr_mac_address_update_body cfg dvr_macs selfmac)

/-- `_add_flows_to_other_subnets` (lines 203-210). -/
def _add_flows_to_other_subnets (gateway_mac : String) (cidrs : Finset String) :
    M Unit :=
  mbind getS (fun s =>
    match s.dvr_mac_address with
    | none => mpure ()
    | some _ =>
      mfor (ftoList cidrs) (fun cidr =>
        emit Sink.int (otherSubnetAddOp gateway_mac cidr)))

/-- `_del_flows_to_other_subnets` (lines 212-215), no self-MAC guard. -/
def _del_flows_to_other_subnets (gateway_mac : String) (cidrs : Finset String) :
    M Unit :=
  mfor (ftoList cidrs) (fun cidr => emit Sink.int (otherSubnetDelOp gateway_mac cidr))

/-- `_add_flows_to_port` (lines 217-226). -/
def _add_flows_to_port (gateway_macs : Finset String) (port : Port)
    (seg_id : String) : M Unit :=
  mbind getS (fun s =>
    match s.dvr_mac_address with
    | none => mpure ()
    | some _ =>
      mfor (ftoList gateway_macs) (fun gateway_mac =>
        emit Sink.int (portAddOp port seg_id gateway_mac)))

/-- `_del_flows_to_port` (lines 228-232), no self-MAC guard. -/
def _del_flows_to_port (gateway_macs : Finset String) (port : Port) : M Unit :=
  mfor (ftoList gateway_macs) (fun gateway_mac =>
    emit Sink.int (portDelOp port gateway_mac))

/-- `port['host'] = None` performed on the port object that is shared
with `registered_routers[did][sid]['ports'][pid]`. -/
def clearPortHost (did sid pid : String) (reg : List (String × Router)) :
    List (String × Router) :=
  reg.map (fun rkv =>
    if rkv.1 = did then
      (rkv.1, rkv.2.map (fun skv =>
        if skv.1 = sid then
          (skv.1, { skv.2 with
            ports := skv.2.ports.map (fun pkv =>
              if pkv.1 = pid then (pkv.1, { pkv.2 with host := none }) else pkv) })
        else skv))
    else rkv)

/-- `_add_flows_to_hosted_port` (lines 234-249).  The `did, sid, pid`
path names the shared port object inside `registered_routers` whose
`host` key is cleared when the attachment is not ready. -/
def _add_flows_to_hosted_port (cfg : Cfg) (did sid pid : String) (port : Port)
    (gateway_mac : String) : M Unit :=
  if port.host ≠ some cfg.host then mpure ()
  else if cfg.get_port_ofport port.name = INVALID_OFPORT then
    modifyReg (clearPortHost did sid pid)
  else emit Sink.int (hostedAddOp port gateway_mac (cfg.get_port_ofport port.name))

/-- `_del_flows_to_hosted_port` (lines 251-256). -/
def _del_flows_to_hosted_port (cfg : Cfg) (port : Port) : M Unit :=
  if port.host ≠ some cfg.host then mpure ()
  else emit Sink.int (hostedDelOp port)

/-- `_subnet_added` (lines 258-267). -/
def _subnet_added (cfg : Cfg) (did sid : String) (subnet : Subnet)
    (cidrs gateway_macs : Finset String) : M Unit :=
  mbind (_add_flows_to_other_subnets subnet.gateway_mac (cidrs \ {subnet.cidr}))
    (fun _ =>
      mfor subnet.ports (fun pkv =>
        mbind (_add_flows_to_port (gateway_macs \ {subnet.gateway_mac}) pkv.2
            subnet.seg_id)
          (fun _ =>
            _add_flows_to_hosted_port cfg did sid pkv.1 pkv.2 subnet.gateway_mac)))

/-- `_port_moved_into_host` (lines 326-329). -/
def _port_moved_into_host (cfg : Cfg) (old_port new_port : Port) : Bool :=
  decide (new_port.host = some cfg.host) && decide (new_port.host ≠ old_port.host)

/-- `_port_moved_out_of_host` (lines 331-334). -/
def _port_moved_out_of_host (cfg : Cfg) (old_port new_port : Port) : Bool :=
  decide (old_port.host = some cfg.host) && decide (new_port.host ≠ old_port.host)

/-- Body of the `for port_id, port in subnet['ports'].iteritems():` loop of
`_subnet_updated` (lines 282-300); the Python `pop` of the old port is the
`dlookup` here, and the leftover old ports are handled by the caller. -/
def _subnet_updated_port (cfg : Cfg) (did sid : String)
    (old_subnet subnet : Subnet) (old_gateway_macs gateway_macs : Finset String)
    (pid : String) (port : Port) : M Unit :=
  if dictMem pid old_subnet.ports then
    mbind (_del_flows_to_port (old_gateway_macs \ gateway_macs) port) (fun _ =>
    mbind (_add_flows_to_port (gateway_macs \ old_gateway_macs) port subnet.seg_id)
      (fun _ =>
        match dlookup pid old_subnet.ports with
        | none => raiseM
        | some old_port =>
          if _port_moved_out_of_host cfg old_port port then
            _del_flows_to_hosted_port cfg old_port
          else if _port_moved_into_host cfg old_port port then
            _add_flows_to_hosted_port cfg did sid pid port subnet.gateway_mac
          else mpure ()))
  else
    mbind (_add_flows_to_port (gateway_macs \ {subnet.gateway_mac}) port
        subnet.seg_id)
      (fun _ => _add_flows_to_hosted_port cfg did sid pid port subnet.gateway_mac)

/-- `_subnet_updated` (lines 269-304). -/
def _subnet_updated (cfg : Cfg) (did sid : String) (old_subnet subnet : Subnet)
    (old_cidrs cidrs old_gateway_macs gateway_macs : Finset String) : M Unit :=
  mbind (_del_flows_to_other_subnets subnet.gateway_mac (old_cidrs \ cidrs))
    (fun _ =>
  mbind (_add_flows_to_other_subnets subnet.gateway_mac (cidrs \ old_cidrs))
    (fun _ =>
  mbind (mfor subnet.ports (fun pkv =>
      _subnet_updated_port cfg did sid old_subnet subnet old_gateway_macs
        gateway_macs pkv.1 pkv.2))
    (fun _ =>
      mfor (old_subnet.ports.filter (fun pkv => !(dictMem pkv.1 subnet.ports)))
        (fun pkv =>
          mbind (_del_flows_to_port (gateway_macs \ {subnet.gateway_mac}) pkv.2)
            (fun _ => _del_flows_to_hosted_port cfg pkv.2)))))

/-- `_subnet_deleted` (lines 306-314). -/
def _subnet_deleted (cfg : Cfg) (subnet : Subnet)
    (cidrs gateway_macs : Finset String) : M Unit :=
  mbind (_del_flows_to_other_subnets subnet.gateway_mac (cidrs \ {subnet.cidr}))
    (fun _ =>
      mfor subnet.ports (fun pkv =>
        mbind (_del_flows_to_port (gateway_macs \ {subnet.gateway_mac}) pkv.2)
          (fun _ => _del_flows_to_hosted_port cfg pkv.2)))

/-- `set(subnet['cidr'] for subnet in dvr.values())`. -/
def routerCidrs (r : Router) : Finset String :=
  (r.map (fun kv => kv.2.cidr)).toFinset

/-- `set(subnet['gateway_mac'] for subnet in dvr.values())`. -/
def routerGatewayMacs (r : Router) : Finset String :=
  (r.map (fun kv => kv.2.gateway_mac)).toFinset

/-- `_dvr_added` (lines 316-324): records the router in
`registered_routers` first, then installs the flows for each subnet. -/
def _dvr_added (cfg : Cfg) (dvr_id : String) (new_dvr : Router) : M Unit :=
  mbind (modifyReg (dictSet dvr_id new_dvr)) (fun _ =>
    mfor new_dvr (fun skv =>
      _subnet_added cfg dvr_id skv.1 skv.2 (routerCidrs new_dvr)
        (routerGatewayMacs new_dvr)))

/-- `_dvr_updated` (lines 337-359) after the pop of the old router value:
records the new one, then diffs subnet by subnet; the Python
`old_dvr.pop(subnet_id)` bookkeeping is modelled by the final filter over
the old subnets. -/
def _dvr_updated_body (cfg : Cfg) (dvr_id : String) (new_dvr old_dvr : Router) :
    M Unit :=
  mbind (modifyReg (dictSet dvr_id new_dvr)) (fun _ =>
  mbind (mfor new_dvr (fun skv =>
      if dictMem skv.1 old_dvr then
        match dlookup skv.1 old_dvr with
        | none => raiseM
        | some old_subnet =>
          _subnet_updated cfg dvr_id skv.1 old_subnet skv.2
            (routerCidrs old_dvr) (routerCidrs new_dvr)
            (routerGatewayMacs old_dvr) (routerGatewayMacs new_dvr)
      else
        _subnet_added cfg dvr_id skv.1 skv.2 (routerCidrs new_dvr)
          (routerGatewayMacs new_dvr)))
    (fun _ =>
      mfor (old_dvr.filter (fun skv => !(dictMem skv.1 new_dvr)))
        (fun skv =>
          _subnet_deleted cfg skv.2 (routerCidrs old_dvr)
            (routerGatewayMacs old_dvr))))

/-- `_dvr_updated` (lines 336-359). -/
def _dvr_updated (cfg : Cfg) (dvr_id : String) (new_dvr : Router) : M Unit :=
  mbind getS (fun s =>
    match dlookup dvr_id s.registered_routers with
    | none => raiseM
    | some old_dvr => _dvr_updated_body cfg dvr_id new_dvr old_dvr)

/-- `_dvr_deleted` (lines 362-369) after the pop. -/
def _dvr_deleted_body (cfg : Cfg) (dvr_id : String) (deleted_dvr : Router) :
    M Unit :=
  mbind (modifyReg (dictRemove dvr_id)) (fun _ =>
    mfor deleted_dvr (fun skv =>
      _subnet_deleted cfg skv.2 (routerCidrs deleted_dvr)
        (routerGatewayMacs deleted_dvr)))

/-- `_dvr_deleted` (lines 361-369). -/
def _dvr_deleted (cfg : Cfg) (dvr_id : String) : M Unit :=
  mbind getS (fun s =>
    match dlookup dvr_id s.registered_routers with
    | none => raiseM
    | some deleted_dvr => _dvr_deleted_body cfg dvr_id deleted_dvr)

/-- Lines 372-375 of `sync_dvr_ports`: while the self MAC is unknown,
retry MAC discovery and reinstall the self-MAC flows. -/
def sync_init (cfg : Cfg) (envMac : Except Unit String) (physBrs : List String) :
    M Unit :=
  mbind getS (fun s =>
    if s.dvr_mac_address.isNone then
      mbind (_get_dvr_mac_address envMac) (fun _ =>
      mbind (_set_src_to_dvr cfg) (fun _ =>
        setup_dvr_flows_on_phys_brs physBrs))
    else mpure ())

/-- Lines 391-410 of `sync_dvr_ports`: the diff of the fetched topology
against `registered_routers`.  `dvrs_to_delete` / `dvrs_to_update` are
computed before any mutation, and the routers that the Python code pops
out of `sync_dvrs` before the final loop are exactly those whose id is
registered. -/
def sync_reconcile (cfg : Cfg) (sync_dvrs : Topology) : M Unit :=
  mbind getS (fun s =>
    let regKeys := s.registered_routers.map (fun kv => kv.1)
    let dvrs_to_delete := regKeys.filter (fun id => !(dictMem id sync_dvrs))
    let dvrs_to_update := regKeys.filter (fun id => dictMem id sync_dvrs)
    mbind (mfor dvrs_to_delete (fun id => _dvr_deleted cfg id)) (fun _ =>
    mbind (mfor dvrs_to_update (fun id =>
        match dlookup id sync_dvrs with
        | some new_dvr => _dvr_updated cfg id new_dvr
        | none => raiseM))
      (fun _ =>
        mfor (sync_dvrs.filter (fun kv => !(decide (kv.1 ∈ regKeys))))
          (fun kv => _dvr_added cfg kv.1 kv.2))))

/-- `sync_dvr_ports` (lines 371-415).  `now1` is the `time.time()` read of
the throttle check, `now2` the one assigned to `last_sync`; `fetch` is the
result of `get_openflow_ew_dvrs` (`error` = the RPC raised, which the
source catches and turns into an early return). -/
def sync_dvr_ports (cfg : Cfg) (envMac : Except Unit String)
    (physBrs : List String) (now1 now2 : Int) (fetch : Except Unit Topology) :
    M Unit :=
  mbind (sync_init cfg envMac physBrs) (fun _ =>
  mbind getS (fun s =>
    if now1 - s.last_sync < cfg.sync_interval then mpure ()
    else
      mbind countFetch (fun _ =>
        match fetch with
        | Except.error _ => mpure ()
        | Except.ok sync_dvrs =>
          mbind (sync_reconcile cfg sync_dvrs) (fun _ => setLastSync now2))))

/- ===== derived notions used by the theorems ===== -/

/-- An installed flow rule of the integration bridge. -/
structure FlowRule where
  table : Nat
  pri : Nat
  m : OFMatch
  actions : String
  deriving DecidableEq

/-- A deletion criterion field matches an installed rule's field. -/
def fieldMatches (crit fld : Option String) : Bool :=
  match crit with
  | none => true
  | some v => decide (fld = some v)

/-- Non-strict delete_flows matching: every field given in the criteria
must be constrained to the same value by the rule. -/
def matchSub (crit fm : OFMatch) : Bool :=
  fieldMatches crit.dl_src fm.dl_src && fieldMatches crit.dl_dst fm.dl_dst &&
  fieldMatches crit.proto fm.proto && fieldMatches crit.ip_dst fm.ip_dst

/-- Apply one recorded event to the integration-bridge flow table:
add_flow replaces the rule with the same (table, priority, match);
delete_flows removes every matching rule (all tables when no table kwarg
was given); physical-bridge events do not touch this table. -/
def applyEvent (t : List FlowRule) (ev : Sink × FlowOp) : List FlowRule :=
  match ev with
  | (Sink.int, FlowOp.addFlow tb pr m a) =>
    (t.filter (fun r =>
      !(decide (r.table = tb) && decide (r.pri = pr) && decide (r.m = m))))
      ++ [⟨tb, pr, m, a⟩]
  | (Sink.int, FlowOp.delFlows tb m _) =>
    t.filter (fun r =>
      !((match tb with
        | none => true
        | some tb0 => decide (r.table = tb0)) && matchSub m r.m))
  | _ => t

/-- The integration-bridge flow table produced by a trace of events. -/
def intTableOf (evs : List (Sink × FlowOp)) : List FlowRule :=
  evs.foldl applyEvent []

/-- Restriction to the three topology-derived categories: "other-subnet"
(table 0 priority 2), "resolve" (table 1 priority 2) and "hosted-delivery"
(table 2 priority 3) rules. -/
def catFilter (t : List FlowRule) : List FlowRule :=
  t.filter (fun r =>
    (decide (r.table = 0) && decide (r.pri = 2)) ||
    (decide (r.table = OF_EW_DVR_DST) && decide (r.pri = 2)) ||
    (decide (r.table = OF_EW_DVR_SRC) && decide (r.pri = 3)))

/-- The flow installations that are guarded by `if not
self.dvr_mac_address: return` in the source: the table-0 priority-2
"other subnets" adds and every table-OF_EW_DVR_DST add. -/
def macGuardedAdd : Sink × FlowOp → Bool
  | (Sink.int, FlowOp.addFlow 0 2 _ _) => true
  | (Sink.int, FlowOp.addFlow t _ _ _) => decide (t = OF_EW_DVR_DST)
  | _ => false

/-- Forget a port's host binding. -/
def portClearHost (p : Port) : Port := { p with host := none }

/-- Forget every host binding in a subnet. -/
def subnetEraseHosts (sn : Subnet) : Subnet :=
  { sn with ports := sn.ports.map (fun kv => (kv.1, portClearHost kv.2)) }

/-- Forget every host binding in a router; two routers equal under this
map carry the same topology up to the `host` keys that
`_add_flows_to_hosted_port` may null out for not-ready ports. -/
def eraseHostsR (r : Router) : Router :=
  r.map (fun kv => (kv.1, subnetEraseHosts kv.2))

def eraseHostsReg (reg : List (String × Router)) : List (String × Router) :=
  reg.map (fun kv => (kv.1, eraseHostsR kv.2))

/-- Well-formedness of a topology value: dict keys are unique at every
level, as they are for genuine Python dicts. -/
def TopoWF (T : Topology) : Prop :=
  (T.map (fun kv => kv.1)).Nodup ∧
  ∀ rkv ∈ T, ((rkv.2.map (fun kv => kv.1)).Nodup ∧
    ∀ skv ∈ rkv.2, (skv.2.ports.map (fun kv => kv.1)).Nodup)

instance (T : Topology) : Decidable (TopoWF T) := by
  unfold TopoWF; infer_instance

/- ===== concrete sample data for witnesses and counterexamples ===== -/

/-- A sample agent configuration; every port attachment resolves to
switch port 5. -/
def cfgW : Cfg :=
  { host := "h", int_ofports := "10", sync_interval := 300,
    get_port_ofport := fun _ => 5 }

/-- A configuration whose attachment resolver always answers
INVALID_OFPORT (port not ready). -/
def cfgNR : Cfg :=
  { host := "h", int_ofports := "10", sync_interval := 300,
    get_port_ofport := fun _ => INVALID_OFPORT }

/-- Initialized agent state: self MAC known, nothing registered. -/
def stW : St :=
  { dvr_mac_address := some "m", registered_dvr_macs := ∅,
    registered_routers := [], last_sync := 0, emitted := [], budget := none,
    fetches := 0 }

def portW : Port := { mac := "pm", ip := "ip1", host := some "h", name := "tap1" }

def subW : Subnet :=
  { cidr := "c1", gateway_mac := "g1", seg_id := "1", ports := [("p1", portW)] }

def topoW : Topology := [("r1", [("s1", subW)])]

/-- State in which `topoW` has already been reconciled. -/
def stReg : St := { stW with registered_routers := topoW }

/-- Two-subnet router with no ports (its reconcile emits exactly the two
"other subnets" adds). -/
def rtr2 : Router :=
  [("s1", { cidr := "c1", gateway_mac := "g1", seg_id := "1", ports := [] }),
   ("s2", { cidr := "c2", gateway_mac := "g2", seg_id := "2", ports := [] })]

def topo2 : Topology := [("r1", rtr2)]

/-- C2 scenario: the very first flow operation of the tick raises. -/
def st2a : St := { stW with budget := some 0 }

def c2fail : St :=
  outSt (sync_dvr_ports cfgW (Except.error ()) [] 1000 1000 (Except.ok topo2)) st2a

/-- C2 scenario: retried tick with the same topology and a healthy backend. -/
def c2retry : St :=
  outSt (sync_dvr_ports cfgW (Except.error ()) [] 2000 2000 (Except.ok topo2))
    { c2fail with budget := none }

/-- What a reconcile of `topo2` from empty state would emit. -/
def c2full : St := outSt (_dvr_added cfgW "r1" rtr2) stW

/-- C3 counterexample state: self MAC unknown, one router registered. -/
def st3 : St :=
  { stW with dvr_mac_address := none, registered_routers := [("r1", rtr2)] }

def c3out : St :=
  outSt (sync_dvr_ports cfgW (Except.error ()) [] 1000 1000 (Except.ok [])) st3

/-- C5 counterexample state: self MAC unknown but discoverable this tick. -/
def st5 : St := { stW with dvr_mac_address := none }

def c5out : St :=
  outSt (sync_dvr_ports cfgW (Except.ok "m") [] 1000 1000 (Except.error ())) st5

/-- C6 counterexample: a failed fetch followed one second later by a
second invocation. -/
def c6a : St :=
  outSt (sync_dvr_ports cfgW (Except.error ()) [] 1000 1000 (Except.error ())) stW

def c6b : St :=
  outSt (sync_dvr_ports cfgW (Except.error ()) [] 1001 1001 (Except.ok [])) c6a

/-- An unhosted port (host of a different agent is irrelevant here). -/
def portA : Port := { mac := "pm", ip := "ip1", host := none, name := "tap1" }

/-- C8 counterexample: the subnet's own gateway MAC changes gA -> gB. -/
def subOldG : Subnet :=
  { cidr := "c1", gateway_mac := "gA", seg_id := "1", ports := [("p1", portA)] }

def subNewG : Subnet := { subOldG with gateway_mac := "gB" }

def c8out : St :=
  outSt (_subnet_updated cfgW "r1" "s1" subOldG subNewG {"c1"} {"c1"} {"gA"} {"gB"})
    stW

/-- C9 failing input: same topology except the port's IP changed. -/
def portB : Port := { portA with ip := "ip2" }

def rtrOld9 : Router :=
  [("s1", { cidr := "c1", gateway_mac := "g1", seg_id := "1",
            ports := [("p1", portA)] }),
   ("s2", { cidr := "c2", gateway_mac := "g2", seg_id := "2", ports := [] })]

def rtrNew9 : Router :=
  [("s1", { cidr := "c1", gateway_mac := "g1", seg_id := "1",
            ports := [("p1", portB)] }),
   ("s2", { cidr := "c2", gateway_mac := "g2", seg_id := "2", ports := [] })]

def sOld9 : St :=
  outSt (sync_dvr_ports cfgW (Except.error ()) [] 1000 1000
    (Except.ok [("r1", rtrOld9)])) stW

def sNew9 : St :=
  outSt (sync_dvr_ports cfgW (Except.error ()) [] 2000 2000
    (Except.ok [("r1", rtrNew9)])) sOld9

/-- The three-category flow set actually installed after the two
reconciles of the C9 scenario. -/
def c9final : List FlowRule := catFilter (intTableOf sNew9.emitted)

/-- The three-category flow set `routerAdded` from empty state produces
on the new topology. -/
def c9ideal : List FlowRule :=
  catFilter (intTableOf (outSt (_dvr_added cfgW "r1" rtrNew9) stW).emitted)

/-- The stale resolve rule: keyed on the port's old IP. -/
def c9stale : FlowRule :=
  ⟨OF_EW_DVR_DST, 2,
   { dl_dst := some "g2", proto := some "ip", ip_dst := some "ip1" },
   "mod_dl_dst:pm,mod_vlan_vid:1," ++ resubmitTo OF_EW_DVR_SRC⟩

/-- The port object reachable under registered_routers[did][sid]['ports'][pid]. -/
def portAt (did sid pid : String) (reg : List (String × Router)) : Option Port :=
  match dlookup did reg with
  | none => none
  | some r =>
    match dlookup sid r with
    | none => none
    | some sn => dlookup pid sn.ports

/-- Transition property: an execution never changes `registered_routers`
except possibly for clearing `host` keys of ports (both on normal return
and when it raises). -/
def KeepsEH {α : Type} (m : M α) : Prop :=
  ∀ s : St, eraseHostsReg (outSt m s).registered_routers =
    eraseHostsReg s.registered_routers

/-- Transition property: started with the self MAC unset, an execution
keeps it unset and every flow operation it appends to the trace is
outside the self-MAC-guarded classes of `macGuardedAdd`. -/
def NMGA {α : Type} (m : M α) : Prop :=
  ∀ s : St, s.dvr_mac_address = none →
    (outSt m s).dvr_mac_address = none ∧
    ∃ l, (outSt m s).emitted = s.emitted ++ l ∧
      ∀ p ∈ l, macGuardedAdd p = false

/-- Transition property: an execution changes neither the fetch counter
nor `last_sync`. -/
def KeepsFL {α : Type} (m : M α) : Prop :=
  ∀ s : St, (outSt m s).fetches = s.fetches ∧
    (outSt m s).last_sync = s.last_sync

/- ===== basic execution lemmas ===== -/

theorem mbind_inl {α β : Type} {x : M α} {s t : St} (h : x s = Sum.inl t)
    (f : α → M β) : mbind x f s = Sum.inl t := by
  unfold mbind; rw [h]

theorem mbind_inr {α β : Type} {x : M α} {s t : St} {a : α}
    (h : x s = Sum.inr (a, t)) (f : α → M β) : mbind x f s = f a t := by
  unfold mbind; rw [h]

theorem outSt_eq_of_inl {α : Type} {m : M α} {s t : St} (h : m s = Sum.inl t) :
    outSt m s = t := by
  unfold outSt; rw [h]

theorem outSt_eq_of_inr {α : Type} {m : M α} {s t : St} {a : α}
    (h : m s = Sum.inr (a, t)) : outSt m s = t := by
  unfold outSt; rw [h]

theorem outSt_mbind_inr {α β : Type} {x : M α} {s t : St} {a : α}
    (h : x s = Sum.inr (a, t)) (f : α → M β) :
    outSt (mbind x f) s = outSt (f a) t := by
  unfold outSt; rw [mbind_inr h]

theorem outSt_mbind_inl {α β : Type} {x : M α} {s t : St} (h : x s = Sum.inl t)
    (f : α → M β) : outSt (mbind x f) s = t := by
  unfold outSt; rw [mbind_inl h]

theorem mbind_getS {β : Type} (f : St → M β) (s : St) :
    mbind getS f s = f s s := rfl

theorem emit_run {snk : Sink} {op : FlowOp} {s : St} (hb : s.budget = none) :
    emit snk op s = Sum.inr ((), { s with emitted := s.emitted ++ [(snk, op)] }) := by
  unfold emit; rw [hb]

theorem emit_fail {snk : Sink} {op : FlowOp} {s : St} (hb : s.budget = some 0) :
    emit snk op s = Sum.inl s := by
  unfold emit; rw [hb]

theorem mfor_id {α : Type} {f : α → M Unit} {s : St} :
    ∀ {l : List α}, (∀ x ∈ l, f x s = Sum.inr ((), s)) →
      mfor l f s = Sum.inr ((), s)
  | [], _ => rfl
  | x :: xs, h => by
    rw [mfor, mbind_inr (h x (List.mem_cons_self x xs))]
    exact mfor_id (fun y hy => h y (List.mem_cons_of_mem x hy))

theorem mfor_emit_run {α : Type} (g : α → FlowOp) :
    ∀ (l : List α) (s : St), s.budget = none →
      mfor l (fun x => emit Sink.int (g x)) s =
        Sum.inr ((), { s with emitted := s.emitted ++ l.map (fun x => (Sink.int, g x)) })
  | [], s, _ => by simp [mfor, mpure]
  | x :: xs, s, hb => by
    rw [mfor, mbind_inr (emit_run hb)]
    rw [mfor_emit_run g xs { s with emitted := s.emitted ++ [(Sink.int, g x)] } hb]
    simp [List.append_assoc]

/- ===== dictionary lemmas ===== -/

theorem map_ext {α β : Type} {f g : α → β} :
    ∀ {l : List α}, (∀ a ∈ l, f a = g a) → l.map f = l.map g
  | [], _ => rfl
  | x :: xs, h => by
    simp only [List.map_cons, h x (List.mem_cons_self x xs)]
    rw [map_ext (fun a ha => h a (List.mem_cons_of_mem x ha))]

theorem dlookup_isSome_of_mem {α : Type} {k : String} {v : α} :
    ∀ {d : List (String × α)}, (k, v) ∈ d → (dlookup k d).isSome
  | [], h => absurd h (List.not_mem_nil _)
  | kv :: rest, h => by
    rcases List.mem_cons.mp h with h1 | h2
    · rw [← h1]; simp [dlookup]
    · by_cases hk : kv.1 = k
      · simp [dlookup, hk]
      · simp only [dlookup, if_neg hk]
        exact dlookup_isSome_of_mem h2

theorem dictMem_of_mem {α : Type} {k : String} {v : α} {d : List (String × α)}
    (h : (k, v) ∈ d) : dictMem k d = true := by
  unfold dictMem
  simpa using dlookup_isSome_of_mem h

theorem mem_keys_of_mem {α : Type} {kv : String × α} {d : List (String × α)}
    (h : kv ∈ d) : kv.1 ∈ d.map (fun x => x.1) :=
  List.mem_map.mpr ⟨kv, h, rfl⟩

theorem dlookup_eq_of_mem_nodup {α : Type} {k : String} {v : α} :
    ∀ {d : List (String × α)}, (k, v) ∈ d →
      (d.map (fun x => x.1)).Nodup → dlookup k d = some v
  | [], h, _ => absurd h (List.not_mem_nil _)
  | kv :: rest, h, hnd => by
    rw [List.map_cons, List.nodup_cons] at hnd
    rcases List.mem_cons.mp h with h1 | h2
    · rw [← h1]; simp [dlookup]
    · have hk : kv.1 ≠ k := by
        intro he
        exact hnd.1 (he ▸ mem_keys_of_mem h2)
      simp only [dlookup, if_neg hk]
      exact dlookup_eq_of_mem_nodup h2 hnd.2

theorem map_keyfix_id {α : Type} {k : String} {v : α} :
    ∀ {d : List (String × α)}, k ∉ d.map (fun x => x.1) →
      d.map (fun kv => if kv.1 = k then (k, v) else kv) = d
  | [], _ => rfl
  | kv :: rest, h => by
    rw [List.map_cons, List.mem_cons] at h
    push_neg at h
    rw [List.map_cons, if_neg (fun he => h.1 he.symm), map_keyfix_id h.2]

theorem dictSet_self {α : Type} {k : String} {v : α} :
    ∀ {d : List (String × α)}, dlookup k d = some v →
      (d.map (fun x => x.1)).Nodup → dictSet k v d = d := by
  intro d h hnd
  have hmap : d.map (fun kv => if kv.1 = k then (k, v) else kv) = d := by
    induction d with
    | nil => rfl
    | cons kv rest ih =>
      rw [List.map_cons, List.nodup_cons] at hnd
      by_cases hk : kv.1 = k
      · have hv : kv.2 = v := by
          simp only [dlookup, if_pos hk] at h
          exact Option.some.inj h
        have hkv : (if kv.1 = k then (k, v) else kv) = kv := by
          rw [if_pos hk, ← hk, ← hv]
        rw [List.map_cons, hkv, map_keyfix_id (hk ▸ hnd.1)]
      · simp only [dlookup, if_neg hk] at h
        rw [List.map_cons, if_neg hk, ih h hnd.2]
  unfold dictSet dictMem
  rw [h]
  simpa using hmap

theorem dlookup_dictSet {α : Type} (k : String) (v : α) :
    ∀ (d : List (String × α)), dlookup k (dictSet k v d) = some v := by
  intro d
  unfold dictSet
  by_cases hm : dictMem k d = true
  · rw [if_pos hm]
    unfold dictMem at hm
    induction d with
    | nil => simp [dlookup] at hm
    | cons kv rest ih =>
      by_cases hk : kv.1 = k
      · simp [dlookup, hk]
      · simp only [dlookup, if_neg hk] at hm
        simp only [List.map_cons, if_neg hk, dlookup, if_neg hk]
        exact ih hm
  · rw [if_neg hm]
    unfold dictMem at hm
    induction d with
    | nil => simp [dlookup]
    | cons kv rest ih =>
      by_cases hk : kv.1 = k
      · exfalso
        apply hm
        simp [dlookup, hk]
      · simp only [List.cons_append, dlookup, if_neg hk]
        apply ih
        intro hc
        apply hm
        simp only [dlookup, if_neg hk]
        exact hc

theorem dlookup_map_keyed {α β : Type} (g : String → α → β) (k : String) :
    ∀ (d : List (String × α)),
      dlookup k (d.map (fun kv => (kv.1, g kv.1 kv.2))) = (dlookup k d).map (g k)
  | [] => rfl
  | kv :: rest => by
    by_cases hk : kv.1 = k
    · subst hk; simp [dlookup]
    · simp only [List.map_cons, dlookup, if_neg hk]
      exact dlookup_map_keyed g k rest

/- ===== ftoList lemmas ===== -/

theorem ftoList_empty : ftoList ∅ = [] := rfl

theorem mem_ftoList {a : String} {s : Finset String} : a ∈ ftoList s ↔ a ∈ s := by
  rcases s with ⟨val, nd⟩
  induction val using Quotient.inductionOn with
  | h l =>
    show a ∈ List.insertionSort (fun a b => a ≤ b) l ↔ _
    rw [(List.perm_insertionSort (fun a b => a ≤ b) l).mem_iff]
    rfl

theorem ftoList_toFinset (s : Finset String) : (ftoList s).toFinset = s := by
  ext a
  rw [List.mem_toFinset, mem_ftoList]

/- ===== runs of the flow helpers on an empty diff ===== -/

theorem del_other_empty (gm : String) (s : St) :
    _del_flows_to_other_subnets gm ∅ s = Sum.inr ((), s) := by
  unfold _del_flows_to_other_subnets
  rw [ftoList_empty]
  rfl

theorem add_other_empty (gm : String) (s : St) :
    _add_flows_to_other_subnets gm ∅ s = Sum.inr ((), s) := by
  unfold _add_flows_to_other_subnets
  rw [mbind_getS]
  cases h : s.dvr_mac_address with
  | none => rfl
  | some m => rw [ftoList_empty]; rfl

theorem del_port_empty (port : Port) (s : St) :
    _del_flows_to_port ∅ port s = Sum.inr ((), s) := by
  unfold _del_flows_to_port
  rw [ftoList_empty]
  rfl

theorem add_port_empty (port : Port) (seg : String) (s : St) :
    _add_flows_to_port ∅ port seg s = Sum.inr ((), s) := by
  unfold _add_flows_to_port
  rw [mbind_getS]
  cases h : s.dvr_mac_address with
  | none => rfl
  | some m => rw [ftoList_empty]; rfl

/- ===== C1 ladder: an unchanged object reconciles to zero operations ===== -/

theorem moved_out_self (cfg : Cfg) (port : Port) :
    _port_moved_out_of_host cfg port port = false := by
  unfold _port_moved_out_of_host
  simp

theorem moved_into_self (cfg : Cfg) (port : Port) :
    _port_moved_into_host cfg port port = false := by
  unfold _port_moved_into_host
  simp

theorem subnet_updated_port_self (cfg : Cfg) (did sid : String) (sub : Subnet)
    (gws : Finset String) (pid : String) (port : Port) (s : St)
    (hmem : (pid, port) ∈ sub.ports)
    (hnd : (sub.ports.map (fun x => x.1)).Nodup) :
    _subnet_updated_port cfg did sid sub sub gws gws pid port s =
      Sum.inr ((), s) := by
  unfold _subnet_updated_port
  rw [if_pos (dictMem_of_mem hmem), Finset.sdiff_self]
  rw [mbind_inr (del_port_empty port s)]
  rw [mbind_inr (add_port_empty port sub.seg_id s)]
  rw [dlookup_eq_of_mem_nodup hmem hnd]
  show (if _port_moved_out_of_host cfg port port = true then
      _del_flows_to_hosted_port cfg port
    else if _port_moved_into_host cfg port port = true then
      _add_flows_to_hosted_port cfg did sid pid port sub.gateway_mac
    else mpure ()) s = Sum.inr ((), s)
  rw [moved_out_self, moved_into_self]
  simp [mpure]

theorem subnet_updated_self (cfg : Cfg) (did sid : String) (sub : Subnet)
    (c g : Finset String) (s : St)
    (hnd : (sub.ports.map (fun x => x.1)).Nodup) :
    _subnet_updated cfg did sid sub sub c c g g s = Sum.inr ((), s) := by
  unfold _subnet_updated
  rw [Finset.sdiff_self]
  rw [mbind_inr (del_other_empty sub.gateway_mac s)]
  rw [mbind_inr (add_other_empty sub.gateway_mac s)]
  have hports : mfor sub.ports (fun pkv =>
      _subnet_updated_port cfg did sid sub sub g g pkv.1 pkv.2) s =
      Sum.inr ((), s) :=
    mfor_id (fun pkv hpkv =>
      subnet_updated_port_self cfg did sid sub g pkv.1 pkv.2 s
        (by rw [Prod.mk.eta]; exact hpkv) hnd)
  rw [mbind_inr hports]
  have hfilter : sub.ports.filter (fun pkv => !(dictMem pkv.1 sub.ports)) = [] := by
    apply List.filter_eq_nil_iff.mpr
    intro pkv hpkv
    obtain ⟨pk, pv⟩ := pkv
    simp [dictMem_of_mem hpkv]
  rw [hfilter]
  rfl

theorem dvr_updated_self (cfg : Cfg) (dvr_id : String) (dvr : Router) (s : St)
    (hlk : dlookup dvr_id s.registered_routers = some dvr)
    (hndreg : (s.registered_routers.map (fun x => x.1)).Nodup)
    (hnddvr : (dvr.map (fun x => x.1)).Nodup)
    (hndports : ∀ skv ∈ dvr, (skv.2.ports.map (fun x => x.1)).Nodup) :
    _dvr_updated cfg dvr_id dvr s = Sum.inr ((), s) := by
  have hset : modifyReg (dictSet dvr_id dvr) s = Sum.inr ((), s) := by
    unfold modifyReg
    rw [dictSet_self hlk hndreg]
  have hsubnets : mfor dvr (fun skv =>
      if dictMem skv.1 dvr then
        match dlookup skv.1 dvr with
        | none => raiseM
        | some old_subnet =>
          _subnet_updated cfg dvr_id skv.1 old_subnet skv.2 (routerCidrs dvr)
            (routerCidrs dvr) (routerGatewayMacs dvr) (routerGatewayMacs dvr)
      else
        _subnet_added cfg dvr_id skv.1 skv.2 (routerCidrs dvr)
          (routerGatewayMacs dvr)) s = Sum.inr ((), s) := by
    apply mfor_id
    intro skv hskv
    obtain ⟨sk, sv⟩ := skv
    rw [if_pos (dictMem_of_mem hskv)]
    rw [dlookup_eq_of_mem_nodup hskv hnddvr]
    exact subnet_updated_self cfg dvr_id sk sv _ _ s (hndports (sk, sv) hskv)
  have hfilter : dvr.filter (fun skv => !(dictMem skv.1 dvr)) = [] := by
    apply List.filter_eq_nil_iff.mpr
    intro skv hskv
    obtain ⟨sk, sv⟩ := skv
    simp [dictMem_of_mem hskv]
  unfold _dvr_updated
  rw [mbind_getS, hlk]
  show _dvr_updated_body cfg dvr_id dvr dvr s = Sum.inr ((), s)
  unfold _dvr_updated_body
  rw [mbind_inr hset, mbind_inr hsubnets, hfilter]
  rfl

theorem sync_reconcile_self (cfg : Cfg) (T : Topology) (s : St)
    (hreg : s.registered_routers = T) (hwf : TopoWF T) :
    sync_reconcile cfg T s = Sum.inr ((), s) := by
  obtain ⟨hndT, hrtr⟩ := hwf
  unfold sync_reconcile
  rw [mbind_getS, hreg]
  have hdel : (T.map (fun kv => kv.1)).filter (fun id => !(dictMem id T)) = [] := by
    apply List.filter_eq_nil_iff.mpr
    intro id hid
    obtain ⟨⟨k0, v0⟩, hkv, hkeq⟩ := List.mem_map.mp hid
    have hkeq' : k0 = id := hkeq
    subst hkeq'
    simp [dictMem_of_mem hkv]
  have hupd : (T.map (fun kv => kv.1)).filter (fun id => dictMem id T) =
      T.map (fun kv => kv.1) := by
    apply List.filter_eq_self.mpr
    intro id hid
    obtain ⟨⟨k0, v0⟩, hkv, hkeq⟩ := List.mem_map.mp hid
    have hkeq' : k0 = id := hkeq
    subst hkeq'
    exact dictMem_of_mem hkv
  rw [hdel, hupd]
  rw [mbind_inr (show mfor ([] : List String) (fun id => _dvr_deleted cfg id) s =
    Sum.inr ((), s) from rfl)]
  have hupdloop : mfor (T.map (fun kv => kv.1)) (fun id =>
      match dlookup id T with
      | some new_dvr => _dvr_updated cfg id new_dvr
      | none => raiseM) s = Sum.inr ((), s) := by
    apply mfor_id
    intro id hid
    obtain ⟨⟨k0, v0⟩, hkv, hkeq⟩ := List.mem_map.mp hid
    have hkeq' : k0 = id := hkeq
    subst hkeq'
    have hl : dlookup k0 T = some v0 := dlookup_eq_of_mem_nodup hkv hndT
    rw [hl]
    show _dvr_updated cfg k0 v0 s = Sum.inr ((), s)
    refine dvr_updated_self cfg k0 v0 s ?_ ?_ ?_ ?_
    · rw [hreg]; exact hl
    · rw [hreg]; exact hndT
    · exact (hrtr (k0, v0) hkv).1
    · exact fun skv hskv => (hrtr (k0, v0) hkv).2 skv hskv
  rw [mbind_inr hupdloop]
  have hadd : T.filter (fun kv => !(decide (kv.1 ∈ T.map (fun kv => kv.1)))) = [] := by
    apply List.filter_eq_nil_iff.mpr
    intro kv hkv
    simp [mem_keys_of_mem hkv]
  rw [hadd]
  rfl

/-- C1: reconciliation is idempotent.  If the self DVR MAC is set and
`registered_routers` already equals the authoritative topology `T` (as it
does immediately after a successful reconcile of the identical `T`), then
`sync_dvr_ports` invoked with fetch result `T` returns normally, issues
zero flow add/delete operations (the recorded trace is unchanged) and
leaves `registered_routers` unchanged — whether the tick is throttled or
performs the full diff. -/
theorem sync_idempotent_no_ops (cfg : Cfg) (envMac : Except Unit String)
    (physBrs : List String) (now1 now2 : Int) (T : Topology) (s : St)
    (m : String) (hm : s.dvr_mac_address = some m)
    (hreg : s.registered_routers = T) (hwf : TopoWF T) :
    ∃ s', sync_dvr_ports cfg envMac physBrs now1 now2 (Except.ok T) s =
        Sum.inr ((), s') ∧ s'.emitted = s.emitted ∧
        s'.registered_routers = s.registered_routers := by
  have hinit : sync_init cfg envMac physBrs s = Sum.inr ((), s) := by
    unfold sync_init
    rw [mbind_getS, hm]
    rfl
  unfold sync_dvr_ports
  rw [mbind_inr hinit, mbind_getS]
  by_cases hthr : now1 - s.last_sync < cfg.sync_interval
  · rw [if_pos hthr]
    exact ⟨s, rfl, rfl, rfl⟩
  · rw [if_neg hthr]
    have hcf : countFetch s = Sum.inr ((), { s with fetches := s.fetches + 1 }) := rfl
    rw [mbind_inr hcf]
    have hrec : sync_reconcile cfg T { s with fetches := s.fetches + 1 } =
        Sum.inr ((), { s with fetches := s.fetches + 1 }) :=
      sync_reconcile_self cfg T _ hreg hwf
    have hfinal : (mbind (sync_reconcile cfg T) (fun _ => setLastSync now2))
        { s with fetches := s.fetches + 1 } =
        Sum.inr ((), { s with fetches := s.fetches + 1, last_sync := now2 }) := by
      rw [mbind_inr hrec]
      rfl
    exact ⟨{ s with fetches := s.fetches + 1, last_sync := now2 }, hfinal, rfl, rfl⟩

/-- C1 witness: the idempotence theorem applied to the concrete topology
`topoW` already registered in `stReg`. -/
theorem sync_idempotent_no_ops_witness :
    ∃ s', sync_dvr_ports cfgW (Except.error ()) [] 1000 1000 (Except.ok topoW)
        stReg = Sum.inr ((), s') ∧ s'.emitted = stReg.emitted ∧
        s'.registered_routers = stReg.registered_routers :=
  sync_idempotent_no_ops cfgW (Except.error ()) [] 1000 1000 topoW stReg "m"
    rfl rfl (by decide)

/- ===== C4 ladder: the foreign-MAC diff loops ===== -/

theorem delMacStep_run (x : String) (s : St) (hb : s.budget = none) :
    delMacStep x s = Sum.inr ((), { s with
      emitted := s.emitted ++ [(Sink.int, macDel0Op x), (Sink.int, macDel2Op x)],
      registered_dvr_macs := s.registered_dvr_macs.erase x }) := by
  unfold delMacStep
  rw [mbind_inr (emit_run hb)]
  rw [mbind_inr (emit_run
    (show ({ s with emitted := s.emitted ++ [(Sink.int, macDel0Op x)] } : St).budget
      = none from hb))]
  unfold modifyMacs
  simp [List.append_assoc]

theorem addMacStep_run (x : String) (s : St) (hb : s.budget = none) :
    addMacStep x s = Sum.inr ((), { s with
      emitted := s.emitted ++ [(Sink.int, macAdd0Op x), (Sink.int, macAdd2Op x)],
      registered_dvr_macs := insert x s.registered_dvr_macs }) := by
  unfold addMacStep
  rw [mbind_inr (emit_run hb)]
  rw [mbind_inr (emit_run
    (show ({ s with emitted := s.emitted ++ [(Sink.int, macAdd0Op x)] } : St).budget
      = none from hb))]
  unfold modifyMacs
  simp [List.append_assoc]

theorem mfor_delMacStep_run :
    ∀ (l : List String) (s : St), s.budget = none →
      mfor l delMacStep s = Sum.inr ((), { s with
        emitted := s.emitted
          ++ l.bind (fun x => [(Sink.int, macDel0Op x), (Sink.int, macDel2Op x)]),
        registered_dvr_macs :=
          l.foldl (fun r x => r.erase x) s.registered_dvr_macs })
  | [], s, _ => by simp [mfor, mpure]
  | x :: xs, s, hb => by
    rw [mfor, mbind_inr (delMacStep_run x s hb)]
    rw [mfor_delMacStep_run xs { s with
      emitted := s.emitted ++ [(Sink.int, macDel0Op x), (Sink.int, macDel2Op x)],
      registered_dvr_macs := s.registered_dvr_macs.erase x } hb]
    simp [List.append_assoc, List.cons_bind]

theorem mfor_addMacStep_run :
    ∀ (l : List String) (s : St), s.budget = none →
      mfor l addMacStep s = Sum.inr ((), { s with
        emitted := s.emitted
          ++ l.bind (fun x => [(Sink.int, macAdd0Op x), (Sink.int, macAdd2Op x)]),
        registered_dvr_macs :=
          l.foldl (fun r x => insert x r) s.registered_dvr_macs })
  | [], s, _ => by simp [mfor, mpure]
  | x :: xs, s, hb => by
    rw [mfor, mbind_inr (addMacStep_run x s hb)]
    rw [mfor_addMacStep_run xs { s with
      emitted := s.emitted ++ [(Sink.int, macAdd0Op x), (Sink.int, macAdd2Op x)],
      registered_dvr_macs := insert x s.registered_dvr_macs } hb]
    simp [List.append_assoc, List.cons_bind]

theorem foldl_erase_run :
    ∀ (l : List String) (r : Finset String),
      l.foldl (fun acc x => acc.erase x) r = r \ l.toFinset
  | [], r => by simp
  | x :: xs, r => by
    rw [List.foldl_cons, foldl_erase_run xs (r.erase x)]
    ext a
    simp only [Finset.mem_sdiff, Finset.mem_erase, List.toFinset_cons,
      Finset.mem_insert, List.mem_toFinset]
    tauto

theorem foldl_insert_run :
    ∀ (l : List String) (r : Finset String),
      l.foldl (fun acc x => insert x acc) r = r ∪ l.toFinset
  | [], r => by simp
  | x :: xs, r => by
    rw [List.foldl_cons, foldl_insert_run xs (insert x r)]
    ext a
    simp only [Finset.mem_union, Finset.mem_insert, List.toFinset_cons,
      List.mem_toFinset]
    tauto

/-- C4: `dvr_mac_address_update` with the self MAC set computes
`desired = desiredMacs` from the roster; it returns normally, leaves
`registered_dvr_macs` equal to `desired`, and its trace is exactly the
Table-0/Table-2 delete pair for each MAC of `registered − desired`
followed by the Table-0 priority-5 / Table-2 priority-2 add pair for each
MAC of `desired − registered`; when `desired` already equals the registry
the state is completely unchanged (zero flow operations). -/
theorem dvr_mac_address_update_spec (cfg : Cfg) (dvr_macs : List DvrMacEntry)
    (s : St) (selfmac : String) (hm : s.dvr_mac_address = some selfmac)
    (hb : s.budget = none) :
    ∃ s', dvr_mac_address_update cfg dvr_macs s = Sum.inr ((), s') ∧
      s'.registered_dvr_macs = desiredMacs cfg selfmac dvr_macs ∧
      s'.emitted = s.emitted
        ++ (ftoList (s.registered_dvr_macs \ desiredMacs cfg selfmac dvr_macs)).bind
            (fun x => [(Sink.int, macDel0Op x), (Sink.int, macDel2Op x)])
        ++ (ftoList (desiredMacs cfg selfmac dvr_macs \ s.registered_dvr_macs)).bind
            (fun x => [(Sink.int, macAdd0Op x), (Sink.int, macAdd2Op x)]) ∧
      (desiredMacs cfg selfmac dvr_macs = s.registered_dvr_macs → s' = s) := by
  have hwrap : dvr_mac_address_update cfg dvr_macs s =
      dvr_mac_address_update_body cfg dvr_macs selfmac s := by
    unfold dvr_mac_address_update
    rw [mbind_getS, hm]
  by_cases hdq : desiredMacs cfg selfmac dvr_macs = s.registered_dvr_macs
  · have hrun : dvr_mac_address_update_body cfg dvr_macs selfmac s =
        Sum.inr ((), s) := by
      unfold dvr_mac_address_update_body
      rw [mbind_getS, if_pos hdq]
      rfl
    refine ⟨s, hwrap.trans hrun, hdq.symm, ?_, fun _ => rfl⟩
    rw [hdq, Finset.sdiff_self, ftoList_empty]
    simp
  · have hb1 : ({ s with
        emitted := s.emitted
          ++ (ftoList (s.registered_dvr_macs \ desiredMacs cfg selfmac dvr_macs)).bind
            (fun x => [(Sink.int, macDel0Op x), (Sink.int, macDel2Op x)]),
        registered_dvr_macs :=
          (ftoList (s.registered_dvr_macs \ desiredMacs cfg selfmac dvr_macs)).foldl
            (fun r x => r.erase x) s.registered_dvr_macs } : St).budget = none := hb
    have hrun : dvr_mac_address_update_body cfg dvr_macs selfmac s =
        Sum.inr ((), { s with
          emitted := s.emitted
            ++ (ftoList (s.registered_dvr_macs \ desiredMacs cfg selfmac dvr_macs)).bind
              (fun x => [(Sink.int, macDel0Op x), (Sink.int, macDel2Op x)])
            ++ (ftoList (desiredMacs cfg selfmac dvr_macs \ s.registered_dvr_macs)).bind
              (fun x => [(Sink.int, macAdd0Op x), (Sink.int, macAdd2Op x)]),
          registered_dvr_macs :=
            (ftoList (desiredMacs cfg selfmac dvr_macs \ s.registered_dvr_macs)).foldl
              (fun r x => insert x r)
              ((ftoList (s.registered_dvr_macs \ desiredMacs cfg selfmac dvr_macs)).foldl
                (fun r x => r.erase x) s.registered_dvr_macs) }) := by
      unfold dvr_mac_address_update_body
      rw [mbind_getS, if_neg hdq]
      rw [mbind_inr (mfor_delMacStep_run _ s hb)]
      rw [mfor_addMacStep_run _ _ hb1]
    have hmacs :
        (ftoList (desiredMacs cfg selfmac dvr_macs \ s.registered_dvr_macs)).foldl
            (fun r x => insert x r)
            ((ftoList (s.registered_dvr_macs \ desiredMacs cfg selfmac dvr_macs)).foldl
              (fun r x => r.erase x) s.registered_dvr_macs) =
          desiredMacs cfg selfmac dvr_macs := by
      rw [foldl_erase_run, foldl_insert_run, ftoList_toFinset, ftoList_toFinset]
      ext a
      simp only [Finset.mem_union, Finset.mem_sdiff]
      tauto
    refine ⟨_, hwrap.trans hrun, hmacs, rfl, fun hc => absurd hc hdq⟩

/-- C4 witness: the update applied at a state registering the stale MAC
"old" while the roster asks for exactly "f1" (host h2), so one delete pair
and one add pair are emitted and the registry ends at the desired set. -/
theorem dvr_mac_address_update_spec_witness :
    ∃ s', dvr_mac_address_update cfgW [⟨"h2", "f1"⟩]
        { stW with registered_dvr_macs := {"old"} } = Sum.inr ((), s') ∧
      s'.registered_dvr_macs = desiredMacs cfgW "m" [⟨"h2", "f1"⟩] ∧
      s'.emitted = { stW with registered_dvr_macs := {"old"} }.emitted
        ++ (ftoList ({ stW with registered_dvr_macs := {"old"} }.registered_dvr_macs
            \ desiredMacs cfgW "m" [⟨"h2", "f1"⟩])).bind
            (fun x => [(Sink.int, macDel0Op x), (Sink.int, macDel2Op x)])
        ++ (ftoList (desiredMacs cfgW "m" [⟨"h2", "f1"⟩]
            \ { stW with registered_dvr_macs := {"old"} }.registered_dvr_macs)).bind
            (fun x => [(Sink.int, macAdd0Op x), (Sink.int, macAdd2Op x)]) ∧
      (desiredMacs cfgW "m" [⟨"h2", "f1"⟩] =
          { stW with registered_dvr_macs := {"old"} }.registered_dvr_macs →
        s' = { stW with registered_dvr_macs := {"old"} }) :=
  dvr_mac_address_update_spec cfgW [⟨"h2", "f1"⟩]
    { stW with registered_dvr_macs := {"old"} } "m" rfl rfl

/- ===== C7 ladder: clearing a not-ready port's host binding ===== -/

theorem map_keyed_ite {α : Type} (k : String) (g : α → α)
    (d : List (String × α)) :
    d.map (fun kv => if kv.1 = k then (kv.1, g kv.2) else kv) =
      d.map (fun kv => (kv.1, if kv.1 = k then g kv.2 else kv.2)) := by
  apply map_ext
  intro kv _
  by_cases h : kv.1 = k
  · rw [if_pos h, if_pos h]
  · rw [if_neg h, if_neg h]

theorem dlookup_map_ite {α : Type} (k j : String) (g : α → α) :
    ∀ (d : List (String × α)),
      dlookup j (d.map (fun kv => (kv.1, if kv.1 = k then g kv.2 else kv.2))) =
        (dlookup j d).map (fun v => if j = k then g v else v)
  | [] => rfl
  | kv :: rest => by
    by_cases hk : kv.1 = j
    · subst hk
      simp [dlookup]
    · simp only [List.map_cons, dlookup, if_neg hk]
      exact dlookup_map_ite k j g rest

theorem portAt_clearPortHost (did sid pid : String)
    (reg : List (String × Router)) :
    portAt did sid pid (clearPortHost did sid pid reg) =
      (portAt did sid pid reg).map portClearHost := by
  unfold portAt clearPortHost
  rw [map_keyed_ite, dlookup_map_ite]
  cases hr : dlookup did reg with
  | none => rfl
  | some r =>
    simp only [Option.map_some', eq_self_iff_true, if_true, ite_true]
    rw [map_keyed_ite sid (fun sn => { sn with
      ports := sn.ports.map (fun pkv =>
        if pkv.1 = pid then (pkv.1, { pkv.2 with host := none }) else pkv) }) r,
      dlookup_map_ite sid sid (fun sn => { sn with
        ports := sn.ports.map (fun pkv =>
          if pkv.1 = pid then (pkv.1, { pkv.2 with host := none }) else pkv) }) r]
    cases hs : dlookup sid r with
    | none => rfl
    | some sn =>
      simp only [Option.map_some', eq_self_iff_true, if_true, ite_true]
      rw [map_keyed_ite pid (fun p => { p with host := none }) sn.ports,
        dlookup_map_ite pid pid (fun p => { p with host := none }) sn.ports]
      cases hp : dlookup pid sn.ports with
      | none => rfl
      | some p =>
        simp only [Option.map_some', eq_self_iff_true, if_true, ite_true]
        rfl

/-- C7: a port hosted by this agent whose attachment resolves to
INVALID_OFPORT causes `_add_flows_to_hosted_port` to return normally
(the reconcile is not aborted) without emitting any flow operation, with
the only state change being that the port's recorded `host` key inside
`registered_routers` is cleared to None, so a later reconcile sees a host
move into this agent and re-attempts the install. -/
theorem hosted_port_not_ready_defers (cfg : Cfg) (did sid pid : String)
    (port : Port) (gm : String) (s : St) (hh : port.host = some cfg.host)
    (hnr : cfg.get_port_ofport port.name = INVALID_OFPORT) :
    _add_flows_to_hosted_port cfg did sid pid port gm s =
      Sum.inr ((), { s with
        registered_routers := clearPortHost did sid pid s.registered_routers }) ∧
    portAt did sid pid
        (outSt (_add_flows_to_hosted_port cfg did sid pid port gm) s).registered_routers
      = (portAt did sid pid s.registered_routers).map portClearHost := by
  have h1 : _add_flows_to_hosted_port cfg did sid pid port gm s =
      Sum.inr ((), { s with
        registered_routers := clearPortHost did sid pid s.registered_routers }) := by
    unfold _add_flows_to_hosted_port
    rw [if_neg (show ¬(port.host ≠ some cfg.host) from fun hc => hc hh),
      if_pos hnr]
    rfl
  refine ⟨h1, ?_⟩
  rw [outSt_eq_of_inr h1]
  exact portAt_clearPortHost did sid pid s.registered_routers

/-- C7 witness: the not-ready resolver defers portW of the registered
topology and clears its recorded host binding. -/
theorem hosted_port_not_ready_defers_witness :
    _add_flows_to_hosted_port cfgNR "r1" "s1" "p1" portW "g1" stReg =
      Sum.inr ((), { stReg with
        registered_routers := clearPortHost "r1" "s1" "p1" stReg.registered_routers }) ∧
    portAt "r1" "s1" "p1"
        (outSt (_add_flows_to_hosted_port cfgNR "r1" "s1" "p1" portW "g1")
          stReg).registered_routers
      = (portAt "r1" "s1" "p1" stReg.registered_routers).map portClearHost :=
  hosted_port_not_ready_defers cfgNR "r1" "s1" "p1" portW "g1" stReg rfl rfl

/- ===== C10 ladder: registry committed before flows, never rolled back ===== -/

theorem eraseHostsReg_clearPortHost (did sid pid : String)
    (reg : List (String × Router)) :
    eraseHostsReg (clearPortHost did sid pid reg) = eraseHostsReg reg := by
  unfold eraseHostsReg clearPortHost
  rw [List.map_map]
  apply map_ext
  intro rkv _
  simp only [Function.comp_apply]
  by_cases hd : rkv.1 = did
  · rw [if_pos hd]
    congr 1
    unfold eraseHostsR
    rw [List.map_map]
    apply map_ext
    intro skv _
    simp only [Function.comp_apply]
    by_cases hs : skv.1 = sid
    · rw [if_pos hs]
      congr 1
      unfold subnetEraseHosts
      simp only []
      congr 1
      rw [List.map_map]
      apply map_ext
      intro pkv _
      simp only [Function.comp_apply]
      by_cases hp : pkv.1 = pid
      · rw [if_pos hp]; rfl
      · rw [if_neg hp]
    · rw [if_neg hs]
  · rw [if_neg hd]

theorem dlookup_eraseHostsReg (k : String) :
    ∀ (reg : List (String × Router)),
      dlookup k (eraseHostsReg reg) = (dlookup k reg).map eraseHostsR
  | [] => rfl
  | kv :: rest => by
    by_cases hk : kv.1 = k
    · simp [eraseHostsReg, dlookup, hk]
    · simp only [eraseHostsReg, List.map_cons, dlookup, if_neg hk]
      exact dlookup_eraseHostsReg k rest

theorem keepsEH_mpure {α : Type} (a : α) : KeepsEH (mpure a) := fun _ => rfl

theorem keepsEH_raise : KeepsEH raiseM := fun _ => rfl

theorem keepsEH_getS : KeepsEH getS := fun _ => rfl

theorem keepsEH_emit (snk : Sink) (op : FlowOp) : KeepsEH (emit snk op) := by
  intro s
  unfold outSt emit
  cases hb : s.budget with
  | none => rfl
  | some n => cases n with
    | zero => rfl
    | succ k => rfl

theorem keepsEH_modifyReg_clear (did sid pid : String) :
    KeepsEH (modifyReg (clearPortHost did sid pid)) := fun s =>
  eraseHostsReg_clearPortHost did sid pid s.registered_routers

theorem keepsEH_mbind {α β : Type} {x : M α} {f : α → M β} (hx : KeepsEH x)
    (hf : ∀ a, KeepsEH (f a)) : KeepsEH (mbind x f) := by
  intro s
  cases h : x s with
  | inl t =>
    rw [outSt_mbind_inl h]
    have h1 := hx s
    rwa [outSt_eq_of_inl h] at h1
  | inr p =>
    obtain ⟨a, t⟩ := p
    rw [outSt_mbind_inr h]
    have h1 := hx s
    rw [outSt_eq_of_inr h] at h1
    exact (hf a t).trans h1

theorem keepsEH_ite {α : Type} {c : Prop} [Decidable c] {x y : M α}
    (hx : KeepsEH x) (hy : KeepsEH y) : KeepsEH (if c then x else y) := by
  by_cases h : c
  · rw [if_pos h]; exact hx
  · rw [if_neg h]; exact hy

theorem keepsEH_mfor {α : Type} (l : List α) (f : α → M Unit)
    (h : ∀ x ∈ l, KeepsEH (f x)) : KeepsEH (mfor l f) := by
  induction l with
  | nil => exact keepsEH_mpure ()
  | cons x xs ih =>
    exact keepsEH_mbind (h x (List.mem_cons_self x xs))
      (fun _ => ih (fun y hy => h y (List.mem_cons_of_mem x hy)))

theorem keepsEH_del_other (gm : String) (c : Finset String) :
    KeepsEH (_del_flows_to_other_subnets gm c) :=
  keepsEH_mfor _ _ (fun _ _ => keepsEH_emit _ _)

theorem keepsEH_add_other (gm : String) (c : Finset String) :
    KeepsEH (_add_flows_to_other_subnets gm c) := by
  unfold _add_flows_to_other_subnets
  refine keepsEH_mbind keepsEH_getS (fun a => ?_)
  cases a.dvr_mac_address with
  | none => exact keepsEH_mpure ()
  | some m => exact keepsEH_mfor _ _ (fun _ _ => keepsEH_emit _ _)

theorem keepsEH_del_port (g : Finset String) (port : Port) :
    KeepsEH (_del_flows_to_port g port) :=
  keepsEH_mfor _ _ (fun _ _ => keepsEH_emit _ _)

theorem keepsEH_add_port (g : Finset String) (port : Port) (seg : String) :
    KeepsEH (_add_flows_to_port g port seg) := by
  unfold _add_flows_to_port
  refine keepsEH_mbind keepsEH_getS (fun a => ?_)
  cases a.dvr_mac_address with
  | none => exact keepsEH_mpure ()
  | some m => exact keepsEH_mfor _ _ (fun _ _ => keepsEH_emit _ _)

theorem keepsEH_hosted_add (cfg : Cfg) (did sid pid : String) (port : Port)
    (gm : String) : KeepsEH (_add_flows_to_hosted_port cfg did sid pid port gm) := by
  unfold _add_flows_to_hosted_port
  exact keepsEH_ite (keepsEH_mpure ())
    (keepsEH_ite (keepsEH_modifyReg_clear did sid pid) (keepsEH_emit _ _))

theorem keepsEH_hosted_del (cfg : Cfg) (port : Port) :
    KeepsEH (_del_flows_to_hosted_port cfg port) := by
  unfold _del_flows_to_hosted_port
  exact keepsEH_ite (keepsEH_mpure ()) (keepsEH_emit _ _)

theorem keepsEH_subnet_added (cfg : Cfg) (did sid : String) (subnet : Subnet)
    (c g : Finset String) : KeepsEH (_subnet_added cfg did sid subnet c g) := by
  unfold _subnet_added
  refine keepsEH_mbind (keepsEH_add_other _ _) (fun _ => ?_)
  refine keepsEH_mfor _ _ (fun pkv _ => ?_)
  exact keepsEH_mbind (keepsEH_add_port _ _ _)
    (fun _ => keepsEH_hosted_add cfg did sid pkv.1 pkv.2 subnet.gateway_mac)

theorem keepsEH_subnet_updated_port (cfg : Cfg) (did sid : String)
    (old_subnet subnet : Subnet) (og g : Finset String) (pid : String)
    (port : Port) :
    KeepsEH (_subnet_updated_port cfg did sid old_subnet subnet og g pid port) := by
  unfold _subnet_updated_port
  refine keepsEH_ite ?_ ?_
  · refine keepsEH_mbind (keepsEH_del_port _ _) (fun _ => ?_)
    refine keepsEH_mbind (keepsEH_add_port _ _ _) (fun _ => ?_)
    cases dlookup pid old_subnet.ports with
    | none => exact keepsEH_raise
    | some old_port =>
      refine keepsEH_ite (keepsEH_hosted_del cfg old_port) ?_
      exact keepsEH_ite (keepsEH_hosted_add cfg did sid pid port subnet.gateway_mac)
        (keepsEH_mpure ())
  · exact keepsEH_mbind (keepsEH_add_port _ _ _)
      (fun _ => keepsEH_hosted_add cfg did sid pid port subnet.gateway_mac)

theorem keepsEH_subnet_updated (cfg : Cfg) (did sid : String)
    (old_subnet subnet : Subnet) (oc c og g : Finset String) :
    KeepsEH (_subnet_updated cfg did sid old_subnet subnet oc c og g) := by
  unfold _subnet_updated
  refine keepsEH_mbind (keepsEH_del_other _ _) (fun _ => ?_)
  refine keepsEH_mbind (keepsEH_add_other _ _) (fun _ => ?_)
  refine keepsEH_mbind
    (keepsEH_mfor _ _ (fun pkv _ =>
      keepsEH_subnet_updated_port cfg did sid old_subnet subnet og g pkv.1 pkv.2))
    (fun _ => ?_)
  refine keepsEH_mfor _ _ (fun pkv _ => ?_)
  exact keepsEH_mbind (keepsEH_del_port _ _)
    (fun _ => keepsEH_hosted_del cfg pkv.2)

theorem keepsEH_subnet_deleted (cfg : Cfg) (subnet : Subnet)
    (c g : Finset String) : KeepsEH (_subnet_deleted cfg subnet c g) := by
  unfold _subnet_deleted
  refine keepsEH_mbind (keepsEH_del_other _ _) (fun _ => ?_)
  refine keepsEH_mfor _ _ (fun pkv _ => ?_)
  exact keepsEH_mbind (keepsEH_del_port _ _)
    (fun _ => keepsEH_hosted_del cfg pkv.2)

theorem lookup_after_keepsEH {m : M Unit} (hk : KeepsEH m) (s : St)
    (k : String) :
    Option.map eraseHostsR (dlookup k (outSt m s).registered_routers) =
      Option.map eraseHostsR (dlookup k s.registered_routers) := by
  have h1 := congrArg (dlookup k) (hk s)
  rwa [dlookup_eraseHostsReg, dlookup_eraseHostsReg] at h1

/-- C10: both `_dvr_added` and `_dvr_updated` commit the new router value
to `registered_routers` before emitting any flow operation for it, and
the commit is never rolled back: whatever the failure budget, the state
in which the call ends (normally or by a raised flow-backend error)
already maps the router id to the new router value — up to the `host`
keys that a not-ready port may have nulled, i.e. up to `eraseHostsR`. -/
theorem registered_before_flows (cfg : Cfg) (dvr_id : String)
    (new_dvr : Router) :
    (∀ s : St,
      Option.map eraseHostsR
          (dlookup dvr_id (outSt (_dvr_added cfg dvr_id new_dvr) s).registered_routers)
        = some (eraseHostsR new_dvr)) ∧
    (∀ s : St, ∀ old_dvr : Router,
      dlookup dvr_id s.registered_routers = some old_dvr →
      Option.map eraseHostsR
          (dlookup dvr_id (outSt (_dvr_updated cfg dvr_id new_dvr) s).registered_routers)
        = some (eraseHostsR new_dvr)) := by
  have hbody : ∀ (old_dvr : Router), KeepsEH (mbind (mfor new_dvr (fun skv =>
      if dictMem skv.1 old_dvr then
        match dlookup skv.1 old_dvr with
        | none => raiseM
        | some old_subnet =>
          _subnet_updated cfg dvr_id skv.1 old_subnet skv.2
            (routerCidrs old_dvr) (routerCidrs new_dvr)
            (routerGatewayMacs old_dvr) (routerGatewayMacs new_dvr)
      else
        _subnet_added cfg dvr_id skv.1 skv.2 (routerCidrs new_dvr)
          (routerGatewayMacs new_dvr)))
    (fun _ =>
      mfor (old_dvr.filter (fun skv => !(dictMem skv.1 new_dvr)))
        (fun skv =>
          _subnet_deleted cfg skv.2 (routerCidrs old_dvr)
            (routerGatewayMacs old_dvr)))) := by
    intro old_dvr
    refine keepsEH_mbind (keepsEH_mfor _ _ (fun skv _ => ?_)) (fun _ =>
      keepsEH_mfor _ _ (fun skv _ => keepsEH_subnet_deleted cfg skv.2 _ _))
    refine keepsEH_ite ?_ (keepsEH_subnet_added cfg dvr_id skv.1 skv.2 _ _)
    cases dlookup skv.1 old_dvr with
    | none => exact keepsEH_raise
    | some old_subnet => exact keepsEH_subnet_updated cfg dvr_id skv.1 _ _ _ _ _ _
  have haddbody : KeepsEH (mfor new_dvr (fun skv =>
      _subnet_added cfg dvr_id skv.1 skv.2 (routerCidrs new_dvr)
        (routerGatewayMacs new_dvr))) :=
    keepsEH_mfor _ _ (fun skv _ => keepsEH_subnet_added cfg dvr_id skv.1 skv.2 _ _)
  constructor
  · intro s
    unfold _dvr_added
    rw [outSt_mbind_inr (show modifyReg (dictSet dvr_id new_dvr) s =
      Sum.inr ((), { s with
        registered_routers := dictSet dvr_id new_dvr s.registered_routers })
      from rfl)]
    rw [lookup_after_keepsEH haddbody]
    show Option.map eraseHostsR
      (dlookup dvr_id (dictSet dvr_id new_dvr s.registered_routers)) = _
    rw [dlookup_dictSet]
    rfl
  · intro s old_dvr hlk
    have hred : outSt (_dvr_updated cfg dvr_id new_dvr) s =
        outSt (_dvr_updated_body cfg dvr_id new_dvr old_dvr) s := by
      unfold outSt _dvr_updated
      rw [mbind_getS, hlk]
    rw [hred]
    unfold _dvr_updated_body
    rw [outSt_mbind_inr (show modifyReg (dictSet dvr_id new_dvr) s =
      Sum.inr ((), { s with
        registered_routers := dictSet dvr_id new_dvr s.registered_routers })
      from rfl)]
    rw [lookup_after_keepsEH (hbody old_dvr)]
    show Option.map eraseHostsR
      (dlookup dvr_id (dictSet dvr_id new_dvr s.registered_routers)) = _
    rw [dlookup_dictSet]
    rfl

/-- C10 witness: the `_dvr_updated` half applied at the concrete
registered state `stReg`, replacing `topoW`'s router by `rtr2`. -/
theorem registered_before_flows_witness :
    Option.map eraseHostsR
        (dlookup "r1" (outSt (_dvr_updated cfgW "r1" rtr2) stReg).registered_routers)
      = some (eraseHostsR rtr2) :=
  (registered_before_flows cfgW "r1" rtr2).2 stReg [("s1", subW)] rfl

/- ===== C3 ladder: executions with the self MAC unset ===== -/

theorem nmga_mpure {α : Type} (a : α) : NMGA (mpure a) := by
  intro s hs
  exact ⟨hs, [], by simp [outSt, mpure], by simp⟩

theorem nmga_raise : NMGA raiseM := by
  intro s hs
  exact ⟨hs, [], by simp [outSt, raiseM], by simp⟩

theorem nmga_emit (snk : Sink) (op : FlowOp)
    (hop : macGuardedAdd (snk, op) = false) : NMGA (emit snk op) := by
  intro s hs
  unfold outSt emit
  cases hb : s.budget with
  | none =>
    refine ⟨hs, [(snk, op)], rfl, ?_⟩
    intro p hp
    rw [List.mem_singleton.mp hp]
    exact hop
  | some n => cases n with
    | zero => exact ⟨hs, [], by simp, by simp⟩
    | succ k =>
      refine ⟨hs, [(snk, op)], rfl, ?_⟩
      intro p hp
      rw [List.mem_singleton.mp hp]
      exact hop

theorem nmga_modifyReg (g : List (String × Router) → List (String × Router)) :
    NMGA (modifyReg g) := by
  intro s hs
  exact ⟨hs, [], by simp [outSt, modifyReg], by simp⟩

theorem nmga_modifyMacs (g : Finset String → Finset String) :
    NMGA (modifyMacs g) := by
  intro s hs
  exact ⟨hs, [], by simp [outSt, modifyMacs], by simp⟩

theorem nmga_setLastSync (t : Int) : NMGA (setLastSync t) := by
  intro s hs
  exact ⟨hs, [], by simp [outSt, setLastSync], by simp⟩

theorem nmga_countFetch : NMGA countFetch := by
  intro s hs
  exact ⟨hs, [], by simp [outSt, countFetch], by simp⟩

theorem nmga_mbind {α β : Type} {x : M α} {f : α → M β} (hx : NMGA x)
    (hf : ∀ a, NMGA (f a)) : NMGA (mbind x f) := by
  intro s hs
  cases h : x s with
  | inl t =>
    rw [outSt_mbind_inl h]
    have h1 := hx s hs
    rwa [outSt_eq_of_inl h] at h1
  | inr p =>
    obtain ⟨a, t⟩ := p
    have h1 := hx s hs
    rw [outSt_eq_of_inr h] at h1
    obtain ⟨hmac1, l1, he1, hl1⟩ := h1
    obtain ⟨hmac2, l2, he2, hl2⟩ := hf a t hmac1
    rw [outSt_mbind_inr h]
    refine ⟨hmac2, l1 ++ l2, ?_, ?_⟩
    · rw [he2, he1, List.append_assoc]
    · intro p hp
      rcases List.mem_append.mp hp with hp1 | hp2
      · exact hl1 p hp1
      · exact hl2 p hp2

theorem nmga_getS_bind {β : Type} {f : St → M β}
    (hf : ∀ v, v.dvr_mac_address = none → NMGA (f v)) :
    NMGA (mbind getS f) := by
  intro s hs
  have : outSt (mbind getS f) s = outSt (f s) s := by
    unfold outSt
    rw [mbind_getS]
  rw [this]
  exact hf s hs s hs

theorem nmga_ite {α : Type} {c : Prop} [Decidable c] {x y : M α}
    (hx : NMGA x) (hy : NMGA y) : NMGA (if c then x else y) := by
  by_cases h : c
  · rw [if_pos h]; exact hx
  · rw [if_neg h]; exact hy

theorem nmga_mfor {α : Type} (l : List α) (f : α → M Unit)
    (h : ∀ x ∈ l, NMGA (f x)) : NMGA (mfor l f) := by
  induction l with
  | nil => exact nmga_mpure ()
  | cons x xs ih =>
    exact nmga_mbind (h x (List.mem_cons_self x xs))
      (fun _ => ih (fun y hy => h y (List.mem_cons_of_mem x hy)))

theorem nmga_set_src (cfg : Cfg) : NMGA (_set_src_to_dvr cfg) := by
  unfold _set_src_to_dvr
  refine nmga_getS_bind (fun v hv => ?_)
  rw [hv]
  exact nmga_mpure ()

theorem nmga_get_mac_err (e : Unit) : NMGA (_get_dvr_mac_address (Except.error e)) :=
  nmga_mpure ()

theorem nmga_setup_phys (physBrs : List String) :
    NMGA (setup_dvr_flows_on_phys_brs physBrs) := by
  unfold setup_dvr_flows_on_phys_brs
  refine nmga_getS_bind (fun v hv => ?_)
  rw [hv]
  exact nmga_mpure ()

theorem nmga_del_other (gm : String) (c : Finset String) :
    NMGA (_del_flows_to_other_subnets gm c) := by
  unfold _del_flows_to_other_subnets
  exact nmga_mfor _ _ (fun x _ => nmga_emit _ _ rfl)

theorem nmga_add_other (gm : String) (c : Finset String) :
    NMGA (_add_flows_to_other_subnets gm c) := by
  unfold _add_flows_to_other_subnets
  refine nmga_getS_bind (fun v hv => ?_)
  rw [hv]
  exact nmga_mpure ()

theorem nmga_del_port (g : Finset String) (port : Port) :
    NMGA (_del_flows_to_port g port) := by
  unfold _del_flows_to_port
  exact nmga_mfor _ _ (fun x _ => nmga_emit _ _ rfl)

theorem nmga_add_port (g : Finset String) (port : Port) (seg : String) :
    NMGA (_add_flows_to_port g port seg) := by
  unfold _add_flows_to_port
  refine nmga_getS_bind (fun v hv => ?_)
  rw [hv]
  exact nmga_mpure ()

theorem nmga_hosted_add (cfg : Cfg) (did sid pid : String) (port : Port)
    (gm : String) : NMGA (_add_flows_to_hosted_port cfg did sid pid port gm) := by
  unfold _add_flows_to_hosted_port
  refine nmga_ite (nmga_mpure ()) (nmga_ite (nmga_modifyReg _) (nmga_emit _ _ ?_))
  rfl

theorem nmga_hosted_del (cfg : Cfg) (port : Port) :
    NMGA (_del_flows_to_hosted_port cfg port) := by
  unfold _del_flows_to_hosted_port
  exact nmga_ite (nmga_mpure ()) (nmga_emit _ _ rfl)

theorem nmga_subnet_added (cfg : Cfg) (did sid : String) (subnet : Subnet)
    (c g : Finset String) : NMGA (_subnet_added cfg did sid subnet c g) := by
  unfold _subnet_added
  refine nmga_mbind (nmga_add_other _ _) (fun _ => ?_)
  refine nmga_mfor _ _ (fun pkv _ => ?_)
  exact nmga_mbind (nmga_add_port _ _ _)
    (fun _ => nmga_hosted_add cfg did sid pkv.1 pkv.2 subnet.gateway_mac)

theorem nmga_subnet_updated_port (cfg : Cfg) (did sid : String)
    (old_subnet subnet : Subnet) (og g : Finset String) (pid : String)
    (port : Port) :
    NMGA (_subnet_updated_port cfg did sid old_subnet subnet og g pid port) := by
  unfold _subnet_updated_port
  refine nmga_ite ?_ ?_
  · refine nmga_mbind (nmga_del_port _ _) (fun _ => ?_)
    refine nmga_mbind (nmga_add_port _ _ _) (fun _ => ?_)
    cases dlookup pid old_subnet.ports with
    | none => exact nmga_raise
    | some old_port =>
      refine nmga_ite (nmga_hosted_del cfg old_port) ?_
      exact nmga_ite (nmga_hosted_add cfg did sid pid port subnet.gateway_mac)
        (nmga_mpure ())
  · exact nmga_mbind (nmga_add_port _ _ _)
      (fun _ => nmga_hosted_add cfg did sid pid port subnet.gateway_mac)

theorem nmga_subnet_updated (cfg : Cfg) (did sid : String)
    (old_subnet subnet : Subnet) (oc c og g : Finset String) :
    NMGA (_subnet_updated cfg did sid old_subnet subnet oc c og g) := by
  unfold _subnet_updated
  refine nmga_mbind (nmga_del_other _ _) (fun _ => ?_)
  refine nmga_mbind (nmga_add_other _ _) (fun _ => ?_)
  refine nmga_mbind (nmga_mfor _ _ (fun pkv _ =>
    nmga_subnet_updated_port cfg did sid old_subnet subnet og g pkv.1 pkv.2))
    (fun _ => ?_)
  refine nmga_mfor _ _ (fun pkv _ => ?_)
  exact nmga_mbind (nmga_del_port _ _) (fun _ => nmga_hosted_del cfg pkv.2)

theorem nmga_subnet_deleted (cfg : Cfg) (subnet : Subnet)
    (c g : Finset String) : NMGA (_subnet_deleted cfg subnet c g) := by
  unfold _subnet_deleted
  refine nmga_mbind (nmga_del_other _ _) (fun _ => ?_)
  refine nmga_mfor _ _ (fun pkv _ => ?_)
  exact nmga_mbind (nmga_del_port _ _) (fun _ => nmga_hosted_del cfg pkv.2)

theorem nmga_dvr_added (cfg : Cfg) (dvr_id : String) (new_dvr : Router) :
    NMGA (_dvr_added cfg dvr_id new_dvr) := by
  unfold _dvr_added
  refine nmga_mbind (nmga_modifyReg _) (fun _ => ?_)
  exact nmga_mfor _ _ (fun skv _ => nmga_subnet_added cfg dvr_id skv.1 skv.2 _ _)

theorem nmga_dvr_updated (cfg : Cfg) (dvr_id : String) (new_dvr : Router) :
    NMGA (_dvr_updated cfg dvr_id new_dvr) := by
  unfold _dvr_updated
  refine nmga_getS_bind (fun v _ => ?_)
  cases dlookup dvr_id v.registered_routers with
  | none => exact nmga_raise
  | some old_dvr =>
    unfold _dvr_updated_body
    refine nmga_mbind (nmga_modifyReg _) (fun _ => ?_)
    refine nmga_mbind (nmga_mfor _ _ (fun skv _ => ?_)) (fun _ =>
      nmga_mfor _ _ (fun skv _ => nmga_subnet_deleted cfg skv.2 _ _))
    refine nmga_ite ?_ (nmga_subnet_added cfg dvr_id skv.1 skv.2 _ _)
    cases dlookup skv.1 old_dvr with
    | none => exact nmga_raise
    | some old_subnet => exact nmga_subnet_updated cfg dvr_id skv.1 _ _ _ _ _ _

theorem nmga_dvr_deleted (cfg : Cfg) (dvr_id : String) :
    NMGA (_dvr_deleted cfg dvr_id) := by
  unfold _dvr_deleted
  refine nmga_getS_bind (fun v _ => ?_)
  cases dlookup dvr_id v.registered_routers with
  | none => exact nmga_raise
  | some deleted_dvr =>
    unfold _dvr_deleted_body
    refine nmga_mbind (nmga_modifyReg _) (fun _ => ?_)
    exact nmga_mfor _ _ (fun skv _ => nmga_subnet_deleted cfg skv.2 _ _)

theorem nmga_sync_reconcile (cfg : Cfg) (T : Topology) :
    NMGA (sync_reconcile cfg T) := by
  unfold sync_reconcile
  refine nmga_getS_bind (fun v _ => ?_)
  refine nmga_mbind (nmga_mfor _ _ (fun id _ => nmga_dvr_deleted cfg id))
    (fun _ => ?_)
  refine nmga_mbind (nmga_mfor _ _ (fun id _ => ?_)) (fun _ =>
    nmga_mfor _ _ (fun kv _ => nmga_dvr_added cfg kv.1 kv.2))
  cases dlookup id T with
  | none => exact nmga_raise
  | some new_dvr => exact nmga_dvr_updated cfg id new_dvr

theorem nmga_sync_init_err (cfg : Cfg) (e : Unit) (physBrs : List String) :
    NMGA (sync_init cfg (Except.error e) physBrs) := by
  unfold sync_init
  refine nmga_getS_bind (fun v hv => ?_)
  rw [hv]
  refine nmga_ite ?_ (nmga_mpure ())
  exact nmga_mbind (nmga_get_mac_err e) (fun _ =>
    nmga_mbind (nmga_set_src cfg) (fun _ => nmga_setup_phys physBrs))

theorem nmga_sync (cfg : Cfg) (e : Unit) (physBrs : List String)
    (now1 now2 : Int) (fetch : Except Unit Topology) :
    NMGA (sync_dvr_ports cfg (Except.error e) physBrs now1 now2 fetch) := by
  unfold sync_dvr_ports
  refine nmga_mbind (nmga_sync_init_err cfg e physBrs) (fun _ => ?_)
  refine nmga_getS_bind (fun v _ => ?_)
  refine nmga_ite (nmga_mpure ()) ?_
  refine nmga_mbind nmga_countFetch (fun _ => ?_)
  cases fetch with
  | error e2 => exact nmga_mpure ()
  | ok T =>
    exact nmga_mbind (nmga_sync_reconcile cfg T) (fun _ => nmga_setLastSync now2)

/-- C3 counterexample: with the self MAC unset (and the retry failing),
`sync_dvr_ports` does NOT skip topology reconciliation: from state `st3`
(one registered two-subnet router) with an empty authoritative topology it
issues two delete operations and empties `registered_routers`, while the
self MAC stays unset — contradicting "performs no topology diffing,
issues no topology flow operations, and does not mutate
registered_routers". -/
theorem macUnset_sync_still_diffs_cex :
    c3out.emitted = [(Sink.int, otherSubnetDelOp "g1" "c2"),
      (Sink.int, otherSubnetDelOp "g2" "c1")] ∧
    c3out.registered_routers = [] ∧
    st3.registered_routers ≠ [] ∧
    c3out.dvr_mac_address = none := by
  refine ⟨by decide, by decide, by decide, by decide⟩

/-- C3 amended: with the self MAC unset and remaining unset after the
retry, `sync_dvr_ports` still diffs and may mutate state, but it never
emits any of the self-MAC-guarded installations — no Table-0 priority-2
"other subnets" add and no Table-1 resolve add (`macGuardedAdd`) — and the
self MAC stays unset; deletions and Table-2 hosted-delivery adds may still
be issued. -/
theorem macUnset_skips_macGuarded_adds (cfg : Cfg) (physBrs : List String)
    (now1 now2 : Int) (fetch : Except Unit Topology) (s : St)
    (h : s.dvr_mac_address = none) :
    (outSt (sync_dvr_ports cfg (Except.error ()) physBrs now1 now2 fetch)
        s).dvr_mac_address = none ∧
    ∃ l, (outSt (sync_dvr_ports cfg (Except.error ()) physBrs now1 now2 fetch)
          s).emitted = s.emitted ++ l ∧
      ∀ p ∈ l, macGuardedAdd p = false :=
  nmga_sync cfg () physBrs now1 now2 fetch s h

/-- C3 amended witness: the theorem applied at the concrete state `st3`. -/
theorem macUnset_skips_macGuarded_adds_witness :
    (outSt (sync_dvr_ports cfgW (Except.error ()) [] 1000 1000 (Except.ok []))
        st3).dvr_mac_address = none ∧
    ∃ l, (outSt (sync_dvr_ports cfgW (Except.error ()) [] 1000 1000 (Except.ok []))
          st3).emitted = st3.emitted ++ l ∧
      ∀ p ∈ l, macGuardedAdd p = false :=
  macUnset_skips_macGuarded_adds cfgW [] 1000 1000 (Except.ok []) st3 rfl

/-- C5 counterexample: with the self MAC unset but discoverable on this
tick, the tick that then hits a failing topology fetch has already issued
a flow operation (the Table-2 priority-1 self-source rewrite), so "zero
flow operations whenever the fetch raises, for every reconciler state" is
false as stated; one fetch was attempted. -/
theorem fetch_failure_emits_cex :
    c5out.emitted = [(Sink.int, selfSrcOp "m" "10")] ∧
    c5out.emitted ≠ [] ∧ c5out.fetches = 1 := by
  refine ⟨by decide, by decide, by decide⟩

/-- C5 amended: for every reconciler state whose self MAC is already set,
a tick whose topology fetch raises aborts atomically: it returns
normally, issues zero flow operations and leaves `registered_routers`,
`registered_dvr_macs` and `last_sync` unchanged (so the next invocation
retries the fetch). -/
theorem fetch_failure_atomic (cfg : Cfg) (envMac : Except Unit String)
    (physBrs : List String) (now1 now2 : Int) (e : Unit) (s : St) (m : String)
    (hm : s.dvr_mac_address = some m) :
    ∃ s', sync_dvr_ports cfg envMac physBrs now1 now2 (Except.error e) s =
        Sum.inr ((), s') ∧ s'.emitted = s.emitted ∧
      s'.registered_routers = s.registered_routers ∧
      s'.registered_dvr_macs = s.registered_dvr_macs ∧
      s'.last_sync = s.last_sync := by
  have hinit : sync_init cfg envMac physBrs s = Sum.inr ((), s) := by
    unfold sync_init
    rw [mbind_getS, hm]
    rfl
  unfold sync_dvr_ports
  rw [mbind_inr hinit, mbind_getS]
  by_cases hthr : now1 - s.last_sync < cfg.sync_interval
  · rw [if_pos hthr]
    exact ⟨s, rfl, rfl, rfl, rfl, rfl⟩
  · rw [if_neg hthr]
    exact ⟨{ s with fetches := s.fetches + 1 }, rfl, rfl, rfl, rfl, rfl⟩

/-- C5 amended witness: the atomic-abort theorem at the concrete state
`stReg` with a failing fetch. -/
theorem fetch_failure_atomic_witness :
    ∃ s', sync_dvr_ports cfgW (Except.error ()) [] 1000 1000 (Except.error ())
        stReg = Sum.inr ((), s') ∧ s'.emitted = stReg.emitted ∧
      s'.registered_routers = stReg.registered_routers ∧
      s'.registered_dvr_macs = stReg.registered_dvr_macs ∧
      s'.last_sync = stReg.last_sync :=
  fetch_failure_atomic cfgW (Except.error ()) [] 1000 1000 () stReg "m" rfl

/- ===== C6 ladder: fetch throttling ===== -/

theorem outSt_getS_bind {β : Type} (f : St → M β) (s : St) :
    outSt (mbind getS f) s = outSt (f s) s := by
  unfold outSt
  rw [mbind_getS]

theorem keepsFL_mpure {α : Type} (a : α) : KeepsFL (mpure a) := fun _ => ⟨rfl, rfl⟩

theorem keepsFL_setMac (m : Option String) : KeepsFL (setMac m) :=
  fun _ => ⟨rfl, rfl⟩

theorem keepsFL_emit (snk : Sink) (op : FlowOp) : KeepsFL (emit snk op) := by
  intro s
  unfold outSt emit
  cases hb : s.budget with
  | none => exact ⟨rfl, rfl⟩
  | some n => cases n with
    | zero => exact ⟨rfl, rfl⟩
    | succ k => exact ⟨rfl, rfl⟩

theorem keepsFL_mbind {α β : Type} {x : M α} {f : α → M β} (hx : KeepsFL x)
    (hf : ∀ a, KeepsFL (f a)) : KeepsFL (mbind x f) := by
  intro s
  cases h : x s with
  | inl t =>
    rw [outSt_mbind_inl h]
    have h1 := hx s
    rwa [outSt_eq_of_inl h] at h1
  | inr p =>
    obtain ⟨a, t⟩ := p
    rw [outSt_mbind_inr h]
    have h1 := hx s
    rw [outSt_eq_of_inr h] at h1
    exact ⟨((hf a t).1).trans h1.1, ((hf a t).2).trans h1.2⟩

theorem keepsFL_mfor {α : Type} (l : List α) (f : α → M Unit)
    (h : ∀ x ∈ l, KeepsFL (f x)) : KeepsFL (mfor l f) := by
  induction l with
  | nil => exact keepsFL_mpure ()
  | cons x xs ih =>
    exact keepsFL_mbind (h x (List.mem_cons_self x xs))
      (fun _ => ih (fun y hy => h y (List.mem_cons_of_mem x hy)))

theorem keepsFL_get_mac (envMac : Except Unit String) :
    KeepsFL (_get_dvr_mac_address envMac) := by
  unfold _get_dvr_mac_address
  cases envMac with
  | ok m => exact keepsFL_setMac (some m)
  | error e => exact keepsFL_mpure ()

theorem keepsFL_set_src (cfg : Cfg) : KeepsFL (_set_src_to_dvr cfg) := by
  unfold _set_src_to_dvr
  refine keepsFL_mbind (fun _ => ⟨rfl, rfl⟩) (fun a => ?_)
  cases a.dvr_mac_address with
  | none => exact keepsFL_mpure ()
  | some m => exact keepsFL_emit _ _

theorem keepsFL_setup_phys (physBrs : List String) :
    KeepsFL (setup_dvr_flows_on_phys_brs physBrs) := by
  unfold setup_dvr_flows_on_phys_brs
  refine keepsFL_mbind (fun _ => ⟨rfl, rfl⟩) (fun a => ?_)
  cases a.dvr_mac_address with
  | none => exact keepsFL_mpure ()
  | some m => exact keepsFL_mfor _ _ (fun _ _ => keepsFL_emit _ _)

theorem keepsFL_sync_init (cfg : Cfg) (envMac : Except Unit String)
    (physBrs : List String) : KeepsFL (sync_init cfg envMac physBrs) := by
  unfold sync_init
  refine keepsFL_mbind (fun _ => ⟨rfl, rfl⟩) (fun a => ?_)
  by_cases h : a.dvr_mac_address.isNone = true
  · rw [if_pos h]
    exact keepsFL_mbind (keepsFL_get_mac envMac) (fun _ =>
      keepsFL_mbind (keepsFL_set_src cfg) (fun _ => keepsFL_setup_phys physBrs))
  · rw [if_neg h]
    exact keepsFL_mpure ()

theorem sync_throttled_no_fetch (cfg : Cfg) (envMac : Except Unit String)
    (physBrs : List String) (now1 now2 : Int) (fetch : Except Unit Topology)
    (s : St) (hthr : now1 - s.last_sync < cfg.sync_interval) :
    (outSt (sync_dvr_ports cfg envMac physBrs now1 now2 fetch) s).fetches =
      s.fetches := by
  unfold sync_dvr_ports
  cases hi : sync_init cfg envMac physBrs s with
  | inl t =>
    rw [outSt_mbind_inl hi]
    have h1 := (keepsFL_sync_init cfg envMac physBrs s).1
    rwa [outSt_eq_of_inl hi] at h1
  | inr p =>
    obtain ⟨a, t⟩ := p
    rw [outSt_mbind_inr hi]
    have hfl := keepsFL_sync_init cfg envMac physBrs s
    rw [outSt_eq_of_inr hi] at hfl
    rw [outSt_getS_bind]
    rw [if_pos (show now1 - t.last_sync < cfg.sync_interval from by
      rw [hfl.2]; exact hthr)]
    exact hfl.1

/-- C6 counterexample: two invocations one second apart each perform a
topology fetch, because the first tick's fetch raised and `last_sync` was
left unchanged — refuting "two invocations within sync_interval seconds
of each other perform at most one topology fetch" as stated. -/
theorem throttle_two_fetches_cex :
    stW.fetches = 0 ∧ c6a.fetches = 1 ∧ c6b.fetches = 2 ∧
    (1001 : Int) - 1000 < cfgW.sync_interval := by
  refine ⟨rfl, by decide, by decide, by decide⟩

/-- C6 amended: (1) a topology fetch is attempted only when at least
`sync_interval` seconds have elapsed since `last_sync` — a throttled tick
leaves the fetch counter unchanged; (2) if an invocation performs a fetch
and completes its tick successfully, then a second invocation within
`sync_interval` seconds of the first performs no fetch.  (As stated the
claim also covered first ticks that abort; those leave `last_sync`
unchanged and the second invocation fetches again, see the
counterexample.) -/
theorem throttle_fetch_spec :
    (∀ (cfg : Cfg) (envMac : Except Unit String) (physBrs : List String)
        (now1 now2 : Int) (fetch : Except Unit Topology) (s : St),
      now1 - s.last_sync < cfg.sync_interval →
      (outSt (sync_dvr_ports cfg envMac physBrs now1 now2 fetch) s).fetches =
        s.fetches) ∧
    (∀ (cfg : Cfg) (em1 em2 : Except Unit String) (ph1 ph2 : List String)
        (t1a t1b t2a t2b : Int) (T : Topology) (fetch2 : Except Unit Topology)
        (s s₁ : St),
      sync_dvr_ports cfg em1 ph1 t1a t1b (Except.ok T) s = Sum.inr ((), s₁) →
      s₁.fetches = s.fetches + 1 →
      t1a ≤ t1b → t2a - t1a < cfg.sync_interval →
      (outSt (sync_dvr_ports cfg em2 ph2 t2a t2b fetch2) s₁).fetches =
        s₁.fetches) := by
  constructor
  · exact fun cfg em ph n1 n2 f s h => sync_throttled_no_fetch cfg em ph n1 n2 f s h
  · intro cfg em1 em2 ph1 ph2 t1a t1b t2a t2b T fetch2 s s₁ h1 hf ht hw
    have hls : s₁.last_sync = t1b := by
      unfold sync_dvr_ports at h1
      cases hi : sync_init cfg em1 ph1 s with
      | inl t =>
        rw [mbind_inl hi] at h1
        exact absurd h1 (by simp)
      | inr p =>
        obtain ⟨a, t⟩ := p
        rw [mbind_inr hi] at h1
        have hfl := keepsFL_sync_init cfg em1 ph1 s
        rw [outSt_eq_of_inr hi] at hfl
        have h1' : (if t1a - t.last_sync < cfg.sync_interval then mpure ()
            else mbind countFetch (fun _ =>
              mbind (sync_reconcile cfg T) (fun _ => setLastSync t1b))) t =
            Sum.inr ((), s₁) := h1
        by_cases hc : t1a - t.last_sync < cfg.sync_interval
        · rw [if_pos hc] at h1'
          have heq : t = s₁ := by simpa [mpure] using h1'
          rw [← heq] at hf
          rw [hfl.1] at hf
          omega
        · rw [if_neg hc] at h1'
          have h3 : mbind (sync_reconcile cfg T) (fun _ => setLastSync t1b)
              { t with fetches := t.fetches + 1 } = Sum.inr ((), s₁) := h1'
          cases hr : sync_reconcile cfg T { t with fetches := t.fetches + 1 } with
          | inl u =>
            rw [mbind_inl hr] at h3
            exact absurd h3 (by simp)
          | inr q =>
            obtain ⟨b, u⟩ := q
            rw [mbind_inr hr] at h3
            have h5 : ({ u with last_sync := t1b } : St) = s₁ := by
              simpa [setLastSync] using h3
            rw [← h5]
    have hth2 : t2a - s₁.last_sync < cfg.sync_interval := by
      rw [hls]
      omega
    exact sync_throttled_no_fetch cfg em2 ph2 t2a t2b fetch2 s₁ hth2

/-- C6 witness: part 1 at a throttled concrete tick; part 2 with a
concrete successful fetching tick at time 1000 followed by an invocation
at 1001. -/
theorem throttle_fetch_spec_witness :
    (outSt (sync_dvr_ports cfgW (Except.error ()) [] 10 10 (Except.ok []))
        stReg).fetches = stReg.fetches ∧
    (outSt (sync_dvr_ports cfgW (Except.error ()) [] 1001 1001 (Except.ok []))
        { stW with fetches := 1, last_sync := 1000 }).fetches =
      ({ stW with fetches := 1, last_sync := 1000 } : St).fetches :=
  ⟨throttle_fetch_spec.1 cfgW (Except.error ()) [] 10 10 (Except.ok []) stReg
      (by decide),
   throttle_fetch_spec.2 cfgW (Except.error ()) (Except.error ()) [] []
      1000 1000 1001 1001 [] (Except.ok []) stW
      { stW with fetches := 1, last_sync := 1000 }
      (by decide) (by decide) (by decide) (by decide)⟩

/- ===== C8 ladder: the known-port branch of _subnet_updated ===== -/

theorem del_port_run (g : Finset String) (port : Port) (s : St)
    (hb : s.budget = none) :
    _del_flows_to_port g port s = Sum.inr ((), { s with
      emitted := s.emitted
        ++ (ftoList g).map (fun gw => (Sink.int, portDelOp port gw)) }) := by
  unfold _del_flows_to_port
  exact mfor_emit_run (portDelOp port) (ftoList g) s hb

theorem add_port_run (g : Finset String) (port : Port) (seg : String) (s : St)
    (m : String) (hm : s.dvr_mac_address = some m) (hb : s.budget = none) :
    _add_flows_to_port g port seg s = Sum.inr ((), { s with
      emitted := s.emitted
        ++ (ftoList g).map (fun gw => (Sink.int, portAddOp port seg gw)) }) := by
  unfold _add_flows_to_port
  rw [mbind_getS]
  conv_lhs => rw [hm]
  exact mfor_emit_run (portAddOp port seg) (ftoList g) s hb

/-- C8 counterexample: `_subnet_updated` on a subnet whose own gateway MAC
changed (gA to gB) with one port present in both versions.  The port's
"other gateway MACs" set is empty in both versions, so the claim demands
zero Table-1 operations for the port and in particular forbids an add
keyed on the subnet's own gateway MAC — but the code deletes the flow
keyed gA and adds one keyed gB, the own new gateway MAC. -/
theorem subnet_updated_own_gw_cex :
    c8out.emitted = [(Sink.int, portDelOp portA "gA"),
      (Sink.int, portAddOp portA "1" "gB")] ∧
    "gB" = subNewG.gateway_mac ∧
    (Sink.int, portAddOp portA subNewG.seg_id subNewG.gateway_mac) ∈
      c8out.emitted := by
  refine ⟨by decide, rfl, by decide⟩

/-- C8 amended: for a port present in both the old and new version of a
subnet (and not moving host), the Table-1 resolve flows are deleted
exactly for `old_gateway_macs − gateway_macs` and added exactly for
`gateway_macs − old_gateway_macs`, where these are the routers' FULL
gateway-MAC sets; when the subnet's own gateway MAC is unchanged (and
belongs to both sets, as it does in context) these coincide with the
claim's "other gateway MACs" diffs and no flow keyed on the own gateway
MAC is added. -/
theorem known_port_table1_diff (cfg : Cfg) (did sid : String)
    (old_subnet subnet : Subnet) (old_gws gws : Finset String) (pid : String)
    (port old_port : Port) (s : St) (m : String)
    (hm : s.dvr_mac_address = some m) (hb : s.budget = none)
    (hlk : dlookup pid old_subnet.ports = some old_port)
    (hhost : old_port.host = port.host)
    (hown : old_subnet.gateway_mac = subnet.gateway_mac)
    (ho : subnet.gateway_mac ∈ old_gws) (hn : subnet.gateway_mac ∈ gws) :
    _subnet_updated_port cfg did sid old_subnet subnet old_gws gws pid port s =
      Sum.inr ((), { s with emitted := (s.emitted
        ++ (ftoList (old_gws \ gws)).map (fun gw => (Sink.int, portDelOp port gw))
        ++ (ftoList (gws \ old_gws)).map
            (fun gw => (Sink.int, portAddOp port subnet.seg_id gw))) }) ∧
    old_gws \ gws =
      (old_gws \ {old_subnet.gateway_mac}) \ (gws \ {subnet.gateway_mac}) ∧
    gws \ old_gws =
      (gws \ {subnet.gateway_mac}) \ (old_gws \ {old_subnet.gateway_mac}) ∧
    subnet.gateway_mac ∉ gws \ old_gws := by
  have hmo : _port_moved_out_of_host cfg old_port port = false := by
    unfold _port_moved_out_of_host
    rw [hhost]
    simp
  have hmi : _port_moved_into_host cfg old_port port = false := by
    unfold _port_moved_into_host
    rw [hhost]
    simp
  have hcont : ∀ s2 : St, (match dlookup pid old_subnet.ports with
      | none => raiseM
      | some old_port =>
        if _port_moved_out_of_host cfg old_port port = true then
          _del_flows_to_hosted_port cfg old_port
        else if _port_moved_into_host cfg old_port port = true then
          _add_flows_to_hosted_port cfg did sid pid port subnet.gateway_mac
        else mpure ()) s2 = Sum.inr ((), s2) := by
    intro s2
    rw [hlk]
    show (if _port_moved_out_of_host cfg old_port port = true then
        _del_flows_to_hosted_port cfg old_port
      else if _port_moved_into_host cfg old_port port = true then
        _add_flows_to_hosted_port cfg did sid pid port subnet.gateway_mac
      else mpure ()) s2 = Sum.inr ((), s2)
    rw [hmo, hmi]
    simp [mpure]
  refine ⟨?_, ?_, ?_, ?_⟩
  · unfold _subnet_updated_port
    rw [if_pos (show dictMem pid old_subnet.ports = true from by
      unfold dictMem; rw [hlk]; rfl)]
    rw [mbind_inr (del_port_run (old_gws \ gws) port s hb)]
    rw [mbind_inr (add_port_run (gws \ old_gws) port subnet.seg_id
      { s with emitted := (s.emitted
        ++ (ftoList (old_gws \ gws)).map
          (fun gw => (Sink.int, portDelOp port gw))) } m hm hb)]
    exact hcont _
  · ext x
    rw [hown]
    simp only [Finset.mem_sdiff, Finset.mem_singleton]
    constructor
    · rintro ⟨h1, h2⟩
      exact ⟨⟨h1, fun he => h2 (he ▸ hn)⟩, fun hc => h2 hc.1⟩
    · rintro ⟨⟨h1, h2⟩, h3⟩
      exact ⟨h1, fun hx => h3 ⟨hx, h2⟩⟩
  · ext x
    rw [hown]
    simp only [Finset.mem_sdiff, Finset.mem_singleton]
    constructor
    · rintro ⟨h1, h2⟩
      exact ⟨⟨h1, fun he => h2 (he ▸ ho)⟩, fun hc => h2 hc.1⟩
    · rintro ⟨⟨h1, h2⟩, h3⟩
      exact ⟨h1, fun hx => h3 ⟨hx, h2⟩⟩
  · rw [Finset.mem_sdiff]
    exact fun hc => hc.2 ho

/-- C8 amended witness: the known-port diff at concrete sets
{g1, g2} -> {g1, g3} with the own gateway MAC g1 unchanged. -/
theorem known_port_table1_diff_witness :
    _subnet_updated_port cfgW "r1" "s1" subW subW
        ({"g1", "g2"} : Finset String) ({"g1", "g3"} : Finset String)
        "p1" portW stW =
      Sum.inr ((), { stW with emitted := (stW.emitted
        ++ (ftoList (({"g1", "g2"} : Finset String) \ {"g1", "g3"})).map
            (fun gw => (Sink.int, portDelOp portW gw))
        ++ (ftoList (({"g1", "g3"} : Finset String) \ {"g1", "g2"})).map
            (fun gw => (Sink.int, portAddOp portW subW.seg_id gw))) }) ∧
    ({"g1", "g2"} : Finset String) \ {"g1", "g3"} =
      (({"g1", "g2"} : Finset String) \ {subW.gateway_mac}) \
        (({"g1", "g3"} : Finset String) \ {subW.gateway_mac}) ∧
    ({"g1", "g3"} : Finset String) \ {"g1", "g2"} =
      (({"g1", "g3"} : Finset String) \ {subW.gateway_mac}) \
        (({"g1", "g2"} : Finset String) \ {subW.gateway_mac}) ∧
    subW.gateway_mac ∉ ({"g1", "g3"} : Finset String) \ {"g1", "g2"} :=
  known_port_table1_diff cfgW "r1" "s1" subW subW {"g1", "g2"} {"g1", "g3"}
    "p1" portW portW stW "m" rfl rfl (by decide) rfl rfl (by decide) (by decide)

/-- C2 evaluation: from empty registered state with topology `topo2`, the
first flow operation of the tick raises (budget 0): the tick aborts with
nothing emitted, yet the router is already recorded in
`registered_routers` (see `registered_before_flows`).  The retried
reconcile with the same topology and a healthy backend then emits nothing
at all, although a reconcile of `topo2` from empty state emits a
non-empty operation list — the operations missing after the failure are
never re-derived, because the diff is computed against
`registered_routers`, which was already advanced to the authoritative
value before the failure. -/
theorem failed_tick_not_reapplied :
    (sync_dvr_ports cfgW (Except.error ()) [] 1000 1000 (Except.ok topo2)
        st2a).isLeft = true ∧
    c2fail.emitted = [] ∧
    dlookup "r1" c2fail.registered_routers = some rtr2 ∧
    (sync_dvr_ports cfgW (Except.error ()) [] 2000 2000 (Except.ok topo2)
        { c2fail with budget := none }).isRight = true ∧
    c2retry.emitted = [] ∧
    c2full.emitted ≠ [] := by
  refine ⟨by decide, by decide, by decide, by decide, by decide, by decide⟩

/-- C9 evaluation: prior registered topology `rtrOld9` and authoritative
`rtrNew9` differ only in one port's IP (ip1 -> ip2).  The second
reconcile emits nothing, so after it the installed three-category flow
set still contains the Table-1 resolve rule keyed on the old IP
(`c9stale`) and is not the set `_dvr_added` from empty state produces on
the new topology — refuting completeness of the incremental diff. -/
theorem reconcile_incomplete_on_ip_change :
    c9stale ∈ c9final ∧ c9stale ∉ c9ideal ∧ c9final ≠ c9ideal ∧
    sNew9.emitted = sOld9.emitted := by
  refine ⟨by decide, by decide, by decide, by decide⟩
